import Mathlib

/-!
Verification development for the mcp-local-rag retrieval engine.

The TypeScript sources are shallowly embedded as executable Lean
definitions:
- numbers that the program manipulates as IEEE doubles are modelled as
  exact rationals, machine timestamps as integers (milliseconds),
- JavaScript strings are modelled as Lean strings, with character-list
  helpers standing in for the JS string primitives (lexicographic
  comparison, lowercasing, substring search), since those are the
  semantics of the ASCII data the program handles,
- external collaborators (the text splitter, the embedding model, the
  BM25 ranking of the full-text index, clocks and UUID generation) are
  passed in as explicit parameters, and injected failures of the
  LanceDB engine are modelled as Option-typed error messages,
- fallible operations return Except, and request handlers return the
  final store state next to their Except outcome so that failure paths
  keep their observable effect on the store.
-/

-- ============================================
-- Character-list string helpers
-- ============================================

/-- Strict lexicographic comparison of character lists, mirroring the
JavaScript string comparison operator on code units. -/
def lexLt : List Char → List Char → Bool
  | _, [] => false
  | [], _ :: _ => true
  | a :: as, b :: bs =>
    if a.toNat < b.toNat then true
    else if b.toNat < a.toNat then false
    else lexLt as bs

/-- JavaScript string comparison (used on ISO-8601 timestamps). -/
def strLt (a b : String) : Bool := lexLt a.data b.data

/-- Substring containment, mirroring JavaScript String.prototype.includes. -/
def containsSub (hay pat : List Char) : Bool :=
  hay.tails.any (fun t => pat.isPrefixOf t)

/-- ASCII lowercasing of a string, mirroring toLowerCase on the ASCII
error messages the store matches against. -/
def lowerChars (s : String) : List Char := s.data.map Char.toLower

-- ============================================
-- Data model (src/src/vectordb/index.ts)
-- ============================================

/-- Document metadata attached to every chunk row. -/
structure DocumentMetadata where
  fileName : String
  fileSize : Int
  fileType : String
  language : Option String := none
  memoryType : Option String := none
  tags : List String := []
  project : Option String := none
  expiresAt : Option String := none
  createdAt : Option String := none
  updatedAt : Option String := none
deriving DecidableEq, Repr, Inhabited

/-- Persisted chunk row of the vector store. -/
structure VectorChunk where
  id : String
  filePath : String
  chunkIndex : Nat
  text : String
  vector : List ℚ
  metadata : DocumentMetadata
  timestamp : String
deriving DecidableEq, Repr, Inhabited

/-- Search result produced by VectorStore.search. -/
structure SearchResult where
  filePath : String
  chunkIndex : Nat
  text : String
  score : ℚ
  metadata : DocumentMetadata
deriving DecidableEq, Repr, Inhabited

/-- Grouping mode for quality filtering. -/
inductive GroupingMode where
  | similar
  | related
deriving DecidableEq, Repr

/-- VectorStore configuration. -/
structure VectorStoreConfig where
  maxDistance : Option ℚ := none
  grouping : Option GroupingMode := none
  hybridWeight : Option ℚ := none
deriving DecidableEq, Repr

/-- Mutable state of a VectorStore: the backing table (none until the
first insert creates it) and the full-text-search flag. -/
structure VectorStoreState where
  table : Option (List VectorChunk)
  ftsEnabled : Bool
deriving DecidableEq, Repr

-- ============================================
-- Chunker (src/src/chunker/index.ts)
-- ============================================

/-- Text chunk produced by the chunker. -/
structure TextChunk where
  text : String
  index : Nat
deriving DecidableEq, Repr

/-- DocumentChunker.chunkText.  The splitter (the external
RecursiveCharacterTextSplitter) is passed in; none models an
uninitialized chunker.  The code returns the empty list for empty
input and otherwise enumerates every window the splitter produced,
without any length filtering. -/
def DocumentChunker.chunkText (splitter : Option (String → List String))
    (text : String) : Except String (List TextChunk) :=
  match splitter with
  | none => .error "DocumentChunker not initialized"
  | some split =>
    if text.length = 0 then .ok []
    else .ok ((split text).enum.map (fun p => { text := p.2, index := p.1 }))

-- ============================================
-- Embedder (src/unnamed/part_000)
-- ============================================

/-- State of an Embedder instance: the loaded model, or none when
initialize has not been run.  The model itself is external and is
modelled as a fallible function from text to a vector. -/
structure EmbedderState where
  model : Option (String → Except String (List ℚ))

/-- Embedder.embed.  The code checks the model reference first and
throws when it is null; only then does it handle the empty string
(zero vector) and call the model. -/
def Embedder.embed (st : EmbedderState) (text : String) :
    Except String (List ℚ) :=
  match st.model with
  | none => .error "Embedder is not initialized. Call initialize() first."
  | some f =>
    if text.length = 0 then .ok (List.replicate 384 0)
    else
      match f text with
      | .ok v => .ok v
      | .error e => .error ("Failed to generate embedding: " ++ e)

/-- Embedder.embedBatch.  The model-null check precedes even the empty
input check.  Batching by the configured batch size only groups the
sequential per-text calls and does not change the outputs, so the
batched traversal is modelled as an ordered traversal. -/
def Embedder.embedBatch (st : EmbedderState) (texts : List String) :
    Except String (List (List ℚ)) :=
  match st.model with
  | none => .error "Embedder is not initialized. Call initialize() first."
  | some _ =>
    if texts.isEmpty then .ok []
    else
      match texts.mapM (Embedder.embed st) with
      | .ok vs => .ok vs
      | .error e => .error ("Failed to generate batch embeddings: " ++ e)

-- ============================================
-- TTL parsing and calendar arithmetic (src/unnamed/part_001,
-- calculateExpiresAt)
-- ============================================

/-- Days since the Unix epoch of a proleptic-Gregorian civil date
(year, month 1-12, day 1-31), the standard era-based computation that
realizes ECMAScript MakeDay.  Passing a day beyond the month's length
rolls over into the following month, exactly as MakeDay does. -/
def daysFromCivil (y : Int) (m d : Nat) : Int :=
  let y2 : Int := if m ≤ 2 then y - 1 else y
  let era : Int := Int.fdiv y2 400
  let yoe : Nat := (y2 - era * 400).toNat
  let mp : Nat := if 2 < m then m - 3 else m + 9
  let doy : Nat := (153 * mp + 2) / 5 + d - 1
  let doe : Nat := yoe * 365 + yoe / 4 - yoe / 100 + doy
  era * 146097 + (doe : Int) - 719468

/-- Civil date (year, month 1-12, day) of a count of days since the
Unix epoch; inverse of daysFromCivil on valid dates. -/
def civilFromDays (z : Int) : Int × Nat × Nat :=
  let z2 : Int := z + 719468
  let era : Int := Int.fdiv z2 146097
  let doe : Nat := (z2 - era * 146097).toNat
  let yoe : Nat := (doe - doe / 1460 + doe / 36524 - doe / 146096) / 365
  let y0 : Int := (yoe : Int) + era * 400
  let doy : Nat := doe - (365 * yoe + yoe / 4 - yoe / 100)
  let mp : Nat := (5 * doy + 2) / 153
  let d : Nat := doy - (153 * mp + 2) / 5 + 1
  let m : Nat := if mp < 10 then mp + 3 else mp - 9
  (if m ≤ 2 then y0 + 1 else y0, m, d)

def msPerDay : Int := 86400000

def msPerHour : Int := 3600000

/-- One branch of the switch in calculateExpiresAt, acting on an
instant in epoch milliseconds (the model works in UTC; the Date
accessors and ISO rendering are bijective with the instant).  The d
branch is setDate(getDate() + value), the h branch is
setHours(getHours() + value) (pure millisecond shift), the m branch is
setMonth(getMonth() + value) and the y branch is
setFullYear(getFullYear() + value); each ends in ECMAScript MakeDay,
i.e. first-day-of-target-month plus the retained day-of-month minus
one, with day overflow rolling forward. -/
def msApplyTtlUnit (unit : Char) (value : Nat) (nowMs : Int) : Int :=
  let day : Int := Int.fdiv nowMs msPerDay
  let msOfDay : Int := nowMs - day * msPerDay
  match civilFromDays day with
  | (y, m, d) =>
    if unit = 'd' then
      (daysFromCivil y m 1 + ((d - 1 + value : Nat) : Int)) * msPerDay + msOfDay
    else if unit = 'h' then nowMs + (value : Int) * msPerHour
    else if unit = 'm' then
      let t : Int := (m : Int) - 1 + value
      let y2 : Int := y + Int.fdiv t 12
      let m2 : Nat := (t % 12).toNat + 1
      (daysFromCivil y2 m2 1 + ((d - 1 : Nat) : Int)) * msPerDay + msOfDay
    else
      (daysFromCivil (y + value) m 1 + ((d - 1 : Nat) : Int)) * msPerDay + msOfDay

/-- Numeric value of a list of ASCII digits, as parseInt reads the
first capture group of the TTL regex. -/
def natFromDigits (ds : List Char) : Nat :=
  ds.foldl (fun a c => a * 10 + (c.toNat - 48)) 0

/-- Match of the TTL string against the regex of one or more digits
followed by a single unit letter d, h, m or y. -/
def parseTtl (s : String) : Option (Nat × Char) :=
  match s.data.getLast? with
  | none => none
  | some u =>
    let ds := s.data.dropLast
    if ds ≠ [] ∧ ds.all (fun c => c.isDigit) ∧
        (u = 'd' ∨ u = 'h' ∨ u = 'm' ∨ u = 'y') then
      some (natFromDigits ds, u)
    else none

/-- calculateExpiresAt: nullish or empty or permanent TTL means no
expiry; otherwise the string must match the TTL regex and the unit is
applied to now as Date arithmetic.  The returned instant stands for
the ISO-8601 string toISOString renders from it. -/
def calculateExpiresAt (ttl : Option String) (nowMs : Int) :
    Except String (Option Int) :=
  match ttl with
  | none => .ok none
  | some s =>
    if s = "" ∨ s = "permanent" then .ok none
    else
      match parseTtl s with
      | none =>
        .error ("Invalid TTL format: " ++ s ++
          ". Use format like \"1d\", \"7d\", \"30d\", \"1y\"")
      | some p => .ok (some (msApplyTtlUnit p.2 p.1 nowMs))

-- ============================================
-- Vector store operations (src/src/vectordb/index.ts)
-- ============================================

/-- Test for the synthetic memory scheme, startsWith of the code. -/
def isMemoryPath (p : String) : Bool := "memory://".data.isPrefixOf p.data

/-- Character class of the label regex (alphanumerics, underscore,
dot, hyphen). -/
def isWordChar (c : Char) : Bool :=
  c.isAlphanum || c == '_' || c == '.' || c == '-'

/-- Characters the store refuses in file paths: semicolon, single
quote, double quote, backslash, backtick (written as code points) and
control characters below 32. -/
def isDangerousChar (c : Char) : Bool :=
  c.toNat = 59 || c.toNat = 39 || c.toNat = 34 || c.toNat = 92 ||
    c.toNat = 96 || c.toNat < 32

/-- validateFilePath of the vectordb module: non-empty, well-formed
memory label for memory:// paths, otherwise an absolute path free of
the dangerous characters. -/
def validateFilePath (filePath : String) : Except String Unit :=
  if filePath = "" then
    .error "Invalid file path: must be a non-empty string"
  else if isMemoryPath filePath then
    (if filePath.data.drop 9 ≠ [] ∧ (filePath.data.drop 9).all isWordChar
     then .ok ()
     else .error "Invalid memory label: must contain only alphanumeric characters, hyphens, underscores, and dots")
  else if ¬ (['/'].isPrefixOf filePath.data) then
    .error "Invalid file path: must be an absolute path starting with /"
  else if filePath.data.any isDangerousChar then
    .error "Invalid file path: contains potentially dangerous characters"
  else .ok ()

/-- Lowercased error messages that deleteChunks swallows: not found,
does not exist, no matching. -/
def deleteSwallowedMsg (msg : String) : Bool :=
  let lm := lowerChars msg
  containsSub lm "not found".data || containsSub lm "does not exist".data ||
    containsSub lm "no matching".data

/-- VectorStore.deleteChunks.  The path is validated first; a missing
table is a successful no-op; otherwise the engine delete removes every
row with the file path (the engine itself does not fail when nothing
matches).  An injected engine error is swallowed when its lowercased
message matches one of the three benign patterns and is surfaced as a
DatabaseError otherwise.  Index rebuild is a best-effort no-op on the
modelled state. -/
def VectorStore.deleteChunks (st : VectorStoreState) (filePath : String)
    (engineErr : Option String) : Except String VectorStoreState :=
  match validateFilePath filePath with
  | .error e => .error e
  | .ok _ =>
    match st.table with
    | none => .ok st
    | some rows =>
      match engineErr with
      | none =>
        .ok { st with table := some (rows.filter (fun r => r.filePath != filePath)) }
      | some msg =>
        if deleteSwallowedMsg msg then .ok st
        else .error ("Failed to delete chunks for file: " ++ filePath)

/-- VectorStore.insertChunks.  Empty input returns before touching the
engine.  The first insert creates the table, later inserts append.  An
injected engine failure surfaces as the DatabaseError whose message is
the constant "Failed to insert chunks" (the underlying cause is kept
only on the cause field, not in the message).  Index maintenance is a
best-effort no-op on the modelled state. -/
def VectorStore.insertChunks (st : VectorStoreState) (chunks : List VectorChunk)
    (engineErr : Option String) : Except String VectorStoreState :=
  if chunks.isEmpty then .ok st
  else
    match engineErr with
    | some _ => .error "Failed to insert chunks"
    | none =>
      match st.table with
      | none => .ok { st with table := some chunks }
      | some rows => .ok { st with table := some (rows ++ chunks) }

/-- Type filter of search and listFiles. -/
inductive TypeFilter where
  | all
  | file
  | memory
deriving DecidableEq, Repr

/-- Entry of the grouped file list. -/
structure FileInfo where
  filePath : String
  chunkCount : Nat
  timestamp : String
  metadata : Option DocumentMetadata
deriving DecidableEq, Repr

/-- Filters of listFiles. -/
structure ListFilters where
  type : Option TypeFilter := none
  tags : Option (List String) := none
  project : Option String := none
  search : Option String := none
  limit : Option Int := none
deriving DecidableEq, Repr

/-- One step of the filePath-keyed grouping map of listFiles: count
the row, and when its timestamp is strictly newer take over timestamp
and metadata.  Insertion order of the JS Map is kept. -/
def upsertFileInfo (acc : List FileInfo) (r : VectorChunk) : List FileInfo :=
  match acc with
  | [] => [{ filePath := r.filePath, chunkCount := 1, timestamp := r.timestamp,
             metadata := some r.metadata }]
  | f :: fs =>
    if f.filePath = r.filePath then
      (if strLt f.timestamp r.timestamp then
        { f with chunkCount := f.chunkCount + 1, timestamp := r.timestamp,
                 metadata := some r.metadata }
       else { f with chunkCount := f.chunkCount + 1 }) :: fs
    else f :: upsertFileInfo fs r

/-- Case-insensitive substring match of the search filter against the
file path or the file name. -/
def searchMatchFileInfo (s : String) (x : FileInfo) : Bool :=
  containsSub (lowerChars x.filePath) (lowerChars s) ||
    (match x.metadata with
     | some md => containsSub (lowerChars md.fileName) (lowerChars s)
     | none => false)

/-- VectorStore.listFiles: group rows by filePath, then apply the type,
tags (conjunctive), project, search and limit filters.  A limit that
is falsy (absent or zero) or not positive leaves the list untruncated. -/
def VectorStore.listFiles (st : VectorStoreState) (filters : Option ListFilters) :
    Except String (List FileInfo) :=
  match st.table with
  | none => .ok []
  | some rows =>
    let base := rows.foldl upsertFileInfo []
    match filters with
    | none => .ok base
    | some f =>
      let r1 := match f.type with
        | some TypeFilter.memory => base.filter (fun x => isMemoryPath x.filePath)
        | some TypeFilter.file => base.filter (fun x => !(isMemoryPath x.filePath))
        | _ => base
      let r2 := match f.tags with
        | some ts =>
          if ts ≠ [] then
            r1.filter (fun x => ts.all (fun t =>
              match x.metadata with
              | some md => md.tags.contains t
              | none => false))
          else r1
        | none => r1
      let r3 := match f.project with
        | some p =>
          if p ≠ "" then
            r2.filter (fun x =>
              match x.metadata with
              | some md => md.project == some p
              | none => false)
          else r2
        | none => r2
      let r4 := match f.search with
        | some s => if s ≠ "" then r3.filter (searchMatchFileInfo s) else r3
        | none => r3
      let r5 := match f.limit with
        | some l => if 0 < l then r4.take l.toNat else r4
        | none => r4
      .ok r5

/-- Insertion of an element into a JS Set modelled as a first-occurrence
list. -/
def setInsert {α : Type} [DecidableEq α] (acc : List α) (a : α) : List α :=
  if a ∈ acc then acc else acc ++ [a]

/-- Distinct elements of a list in first-occurrence order, the
contents of a JS Set filled by iteration. -/
def insertOrderDedup {α : Type} [DecidableEq α] (l : List α) : List α :=
  l.foldl setInsert []

/-- Status record of VectorStore.getStatus. -/
structure StatusResult where
  documentCount : Nat
  chunkCount : Nat
  memoryUsage : ℚ
  uptime : ℚ
  ftsIndexEnabled : Bool
  searchMode : String
deriving DecidableEq, Repr

/-- VectorStore.getStatus.  Without a table the counts are zero,
memoryUsage is the literal zero, the FTS flag is reported false and
the mode is vector-only; process memory and uptime are external inputs. -/
def VectorStore.getStatus (cfg : VectorStoreConfig) (st : VectorStoreState)
    (memUsage uptime : ℚ) : Except String StatusResult :=
  match st.table with
  | none =>
    .ok { documentCount := 0, chunkCount := 0, memoryUsage := 0,
          uptime := uptime, ftsIndexEnabled := false, searchMode := "vector-only" }
  | some rows =>
    .ok { documentCount := (insertOrderDedup (rows.map (fun r => r.filePath))).length,
          chunkCount := rows.length, memoryUsage := memUsage, uptime := uptime,
          ftsIndexEnabled := st.ftsEnabled,
          searchMode :=
            if st.ftsEnabled ∧ 0 < cfg.hybridWeight.getD (3/5) then "hybrid"
            else "vector-only" }

/-- VectorStore.getMemoryByLabel: every row whose filePath is the
synthetic memory path of the label, in table order. -/
def VectorStore.getMemoryByLabel (st : VectorStoreState) (label : String) :
    Except String (List VectorChunk) :=
  match st.table with
  | none => .ok []
  | some rows => .ok (rows.filter (fun r => r.filePath == "memory://" ++ label))

/-- Expiry test of cleanupExpired: a truthy (non-null, non-empty)
expiresAt strictly below now in string order. -/
def isExpiredRow (r : VectorChunk) (now : String) : Bool :=
  match r.metadata.expiresAt with
  | some e => e != "" && strLt e now
  | none => false

/-- VectorStore.cleanupExpired: collect the distinct filePaths that own
an expired row, delete each of them through deleteChunks, and return
the new state with the count of deleted sources.  A failing delete is
wrapped into the constant cleanup DatabaseError. -/
def VectorStore.cleanupExpired (st : VectorStoreState) (now : String) :
    Except String (VectorStoreState × Nat) :=
  match st.table with
  | none => .ok (st, 0)
  | some rows =>
    let expiredFilePaths :=
      insertOrderDedup ((rows.filter (fun r => isExpiredRow r now)).map (fun r => r.filePath))
    match expiredFilePaths.foldlM (fun acc fp =>
        (VectorStore.deleteChunks acc.1 fp none).map (fun s => (s, acc.2 + 1)))
        (st, (0 : Nat)) with
    | .ok res => .ok res
    | .error _ => .error "Failed to cleanup expired memories"

-- ============================================
-- Request handler: delete_file (src/unnamed/part_001)
-- ============================================

/-- Modelled from the spec: DocumentParser.validateFilePath.  The
parser module is not among the provided sources (only its callers
are); spec 4.3 says validation rejects paths that escape the
configured root directory and paths carrying single or double quotes,
backslash, backtick, semicolon, or any control character, while
memory:// paths require a well-formed label. -/
def DocumentParser.validateFilePath (baseDir : String) (filePath : String) :
    Except String Unit :=
  if isMemoryPath filePath then
    (if filePath.data.drop 9 ≠ [] ∧ (filePath.data.drop 9).all isWordChar
     then .ok ()
     else .error "Invalid memory label")
  else if filePath.data.any isDangerousChar then
    .error "Path contains characters that could be interpreted by the filter language"
  else if ¬ (baseDir.data.isPrefixOf filePath.data) then
    .error "Path escapes the configured root directory"
  else .ok ()

/-- Success payload of the delete_file tool. -/
structure DeleteResult where
  filePath : String
  deleted : Bool
  timestamp : String
deriving DecidableEq, Repr

/-- RAGServer.handleDeleteFile: validate the path through the parser,
delete the chunks through the store, and report success; any thrown
error is rewrapped with the handler prefix (production mode surfaces
the message only). -/
def RAGServer.handleDeleteFile (baseDir : String) (st : VectorStoreState)
    (filePath : String) (engineErr : Option String) (nowTs : String) :
    VectorStoreState × Except String DeleteResult :=
  match DocumentParser.validateFilePath baseDir filePath with
  | .error e => (st, .error ("Failed to delete file: " ++ e))
  | .ok _ =>
    match VectorStore.deleteChunks st filePath engineErr with
    | .error e => (st, .error ("Failed to delete file: " ++ e))
    | .ok st2 => (st2, .ok { filePath := filePath, deleted := true, timestamp := nowTs })

-- ============================================
-- Hybrid fusion (src/src/vectordb/index.ts, hybridRerank)
-- ============================================

/-- Raw engine row as search handles it before conversion to a
SearchResult: the selected columns plus the optional _distance column
(the FTS candidate query selects its columns without _distance, the
vector query carries it). -/
structure RawResult where
  filePath : String
  chunkIndex : Nat
  text : String
  metadata : DocumentMetadata
  dist : Option ℚ
deriving DecidableEq, Repr

/-- Fusion key of a candidate.  The code keys its map by the template
string of filePath, a colon and the decimal chunkIndex, which encodes
this pair injectively because the decimal digits contain no colon; the
model uses the pair directly. -/
def rawKey (r : RawResult) : String × Nat := (r.filePath, r.chunkIndex)

/-- Entry list of the fusion score map, in JS Map insertion order. -/
abbrev FusionMap := List ((String × Nat) × RawResult × ℚ)

/-- Map.get of the fusion map. -/
def fusionGet (m : FusionMap) (k : String × Nat) : Option (RawResult × ℚ) :=
  (m.find? (fun e => decide (e.1 = k))).map (fun e => e.2)

/-- Map.set of the fusion map: replace the value in place when the key
is present, append a fresh entry otherwise. -/
def fusionSet : FusionMap → (String × Nat) → RawResult × ℚ → FusionMap
  | [], k, v => [(k, v)]
  | e :: es, k, v =>
    if e.1 = k then (k, v) :: es else e :: fusionSet es k v

/-- Score increment of an existing entry (the existing.score += branch);
a missing key leaves the map unchanged, the code only calls this after
a positive Map.has check. -/
def fusionAdd : FusionMap → (String × Nat) → ℚ → FusionMap
  | [], _, _ => []
  | e :: es, k, q =>
    if e.1 = k then (e.1, e.2.1, e.2.2 + q) :: es else e :: fusionAdd es k q

/-- Score of a key in the fusion map, zero when absent. -/
def getScoreD (m : FusionMap) (k : String × Nat) : ℚ :=
  match fusionGet m k with
  | some v => v.2
  | none => 0

/-- First loop body of hybridRerank: each vector candidate is stored
under its key with similarity max(0, 1 - distance/2) (distance
defaulting to 1 when the column is missing) weighted by the vector
weight; Map.set semantics lets a later duplicate key overwrite. -/
def vecFoldStep (w : ℚ) (m : FusionMap) (r : RawResult) : FusionMap :=
  fusionSet m (rawKey r) (r, max 0 (1 - r.dist.getD 1 / 2) * w)

/-- Second loop body of hybridRerank: the candidate at rank i of n
contributes (1 - i/n) weighted by the BM25 weight, added onto an
existing entry or stored fresh. -/
def ftsFoldStep (w : ℚ) (n : Nat) (m : FusionMap) (p : Nat × RawResult) : FusionMap :=
  match fusionGet m (rawKey p.2) with
  | some _ => fusionAdd m (rawKey p.2) ((1 - (p.1 : ℚ) / (n : ℚ)) * w)
  | none => fusionSet m (rawKey p.2) (p.2, (1 - (p.1 : ℚ) / (n : ℚ)) * w)

/-- VectorStore.hybridRerank: build the fusion map from the vector
candidates then the ranked FTS candidates, sort the entries descending
by fused score (the stable JS sort), keep the top limit entries, and
emit each stored raw result with _distance overwritten by one minus
its fused score. -/
def VectorStore.hybridRerank (cfg : VectorStoreConfig)
    (ftsResults vectorResults : List RawResult) (limit : Nat) : List RawResult :=
  let bm25Weight := cfg.hybridWeight.getD (3/5)
  let vectorWeight := 1 - bm25Weight
  let afterVec := vectorResults.foldl (vecFoldStep vectorWeight) []
  let afterFts := ftsResults.enum.foldl (ftsFoldStep bm25Weight ftsResults.length) afterVec
  let sorted := afterFts.mergeSort (fun a b => decide (b.2.2 ≤ a.2.2))
  (sorted.take limit).map (fun e => { e.2.1 with dist := some (1 - e.2.2) })

/-- Dense fusion contribution of a vector candidate as the claim
words it, with w the hybrid (BM25) weight. -/
def denseContribution (w : ℚ) (r : RawResult) : ℚ :=
  max 0 (1 - r.dist.getD 1 / 2) * (1 - w)

/-- Lexical fusion contribution of the candidate at rank i of n. -/
def ftsContribution (w : ℚ) (n : Nat) (i : Nat) : ℚ :=
  (1 - (i : ℚ) / (n : ℚ)) * w

/-- Fused score of a key as the claim words it: the sum of the dense
contributions of the vector candidates with that key plus the sum of
the rank-based contributions of the lexical candidates with that key. -/
def fusedScore (ftsResults vectorResults : List RawResult) (w : ℚ)
    (k : String × Nat) : ℚ :=
  ((vectorResults.filter (fun r => decide (rawKey r = k))).map
    (denseContribution w)).sum +
  ((ftsResults.enum.filter (fun p => decide (rawKey p.2 = k))).map
    (fun p => ftsContribution w ftsResults.length p.1)).sum

/-- Well-formedness of a fusion map: keys are pairwise distinct and
every entry stores a raw result whose key is the entry key. -/
def FusionWF (m : FusionMap) : Prop :=
  (m.map (fun e => e.1)).Nodup ∧ ∀ e ∈ m, rawKey e.2.1 = e.1

-- ============================================
-- Grouping filter (src/src/vectordb/index.ts, applyGrouping)
-- ============================================

/-- Exact rational rendering of the strict threshold comparison
gap > mean + 1.5 * sqrt(variance) of the code: for nonnegative
variance this holds precisely when the centered gap is positive and
its square exceeds (3/2)^2 times the variance (gapExceeds_iff_real
below proves the equivalence over the reals). -/
def gapExceeds (gap mean variance : ℚ) : Bool :=
  decide (0 < gap - mean ∧ (9 / 4) * variance < (gap - mean) ^ 2)

/-- Indexed consecutive gaps of the result list: entries
(i + 1, score(i+1) - score(i)), as the code's gap-collecting loop
produces them. -/
def groupingGaps (results : List SearchResult) : List (Nat × ℚ) :=
  (results.zip results.tail).enum.map
    (fun p => (p.1 + 1, p.2.2.score - p.2.1.score))

/-- Mean of the gap values. -/
def gapMean (gapValues : List ℚ) : ℚ := gapValues.sum / gapValues.length

/-- Population variance of the gap values (division by the count, not
the count minus one). -/
def gapVariance (gapValues : List ℚ) : ℚ :=
  (gapValues.map (fun b => (b - gapMean gapValues) ^ 2)).sum / gapValues.length

/-- Boundary indices: indices i + 1 whose gap strictly exceeds the
statistical threshold. -/
def groupingBoundaries (results : List SearchResult) : List Nat :=
  let gaps := groupingGaps results
  let gv := gaps.map (fun g => g.2)
  (gaps.filter (fun g => gapExceeds g.2 (gapMean gv) (gapVariance gv))).map
    (fun g => g.1)

/-- VectorStore.applyGrouping with the code's control flow: lists of
at most one result, an empty gap list, and an empty boundary list pass
through unchanged; otherwise the cut index is boundaries[0] for
similar mode and boundaries[1] for related mode, and when the boundary
list is too short the related mode keeps everything while the similar
branch slices at boundaries[0] (slice(0, undefined) copies the whole
array when even that is missing). -/
def VectorStore.applyGrouping (results : List SearchResult) (mode : GroupingMode) :
    List SearchResult :=
  if results.length ≤ 1 then results
  else
    let gaps := groupingGaps results
    if gaps.isEmpty then results
    else
      let boundaries := groupingBoundaries results
      if boundaries.isEmpty then results
      else
        let groupsToInclude := if mode = GroupingMode.similar then 1 else 2
        let boundaryIndex := groupsToInclude - 1
        if boundaries.length ≤ boundaryIndex then
          (match mode, boundaries with
           | GroupingMode.related, _ => results
           | _, [] => results
           | _, b :: _ => results.take b)
        else results.take (boundaries.getD boundaryIndex 0)

/-- The grouping filter as the specification words it: boundaries are
the indices i + 1 whose gap exceeds T = mean + 1.5 * std; similar mode
truncates at the first boundary, related mode truncates at the second
boundary or keeps all results when fewer than two boundaries exist;
with at most one result or no gap exceeding T the input is returned
unchanged. -/
def groupingSpec (results : List SearchResult) (mode : GroupingMode) :
    List SearchResult :=
  if results.length ≤ 1 then results
  else
    match mode, groupingBoundaries results with
    | _, [] => results
    | GroupingMode.similar, b :: _ => results.take b
    | GroupingMode.related, [_] => results
    | GroupingMode.related, _ :: b :: _ => results.take b

-- ============================================
-- Search pipeline (src/src/vectordb/index.ts, search)
-- ============================================

/-- Dot-product distance of the engine as the code documents it
(0 identical, 1 orthogonal, 2 opposite for unit vectors). -/
def dotDistance (u v : List ℚ) : ℚ := 1 - (List.zipWith (fun a b => a * b) u v).sum

/-- Raw row of the dense engine query, carrying its _distance. -/
def toRawWithDist (p : VectorChunk × ℚ) : RawResult :=
  { filePath := p.1.filePath, chunkIndex := p.1.chunkIndex, text := p.1.text,
    metadata := p.1.metadata, dist := some p.2 }

/-- Dense candidate retrieval: the engine ranks every row ascending by
dot distance to the query vector (a stable sort; engine tie order is
not observable through the claims proved here). -/
def VectorStore.vectorSearch (rows : List VectorChunk) (queryVector : List ℚ) :
    List RawResult :=
  ((rows.map (fun c => (c, dotDistance queryVector c.vector))).mergeSort
    (fun a b => decide (a.2 ≤ b.2))).map toRawWithDist

/-- Raw row of the FTS candidate query, whose column selection carries
no _distance. -/
def toRawNoDist (c : VectorChunk) : RawResult :=
  { filePath := c.filePath, chunkIndex := c.chunkIndex, text := c.text,
    metadata := c.metadata, dist := none }

/-- toSearchResultWithMetadata: raw row to SearchResult, the missing
_distance defaulting to 0; the Arrow metadata normalization is the
identity on the typed model. -/
def toSearchResultWithMetadata (r : RawResult) : SearchResult :=
  { filePath := r.filePath, chunkIndex := r.chunkIndex, text := r.text,
    score := r.dist.getD 0, metadata := r.metadata }

/-- Options of VectorStore.search. -/
structure SearchOptions where
  queryText : Option String := none
  limit : Option Int := none
  type : Option TypeFilter := none
  tags : Option (List String) := none
  project : Option String := none
  minScore : Option ℚ := none
deriving DecidableEq, Repr

/-- Candidate multiplier of the hybrid path. -/
def HYBRID_SEARCH_CANDIDATE_MULTIPLIER : Nat := 2

/-- VectorStore.search.  A missing table short-circuits to the empty
list before any validation; the limit (default 10) must lie in 1..20;
the hybrid path runs when the FTS index is live, the query text is
truthy and non-blank, and the hybrid weight (default 0.6) is positive,
fusing limit*4 candidates from each retrieval; otherwise the dense
path over-fetches limit*3 with the optional engine-side maxDistance
range.  Then the maxDistance, type, tags (conjunctive), project and
minScore filters apply, the optional grouping filter trims the tail,
and the first limit results are returned.  The BM25 ranking of the
external index is the ftsRank parameter; the code's fallback to
vector-only search when the FTS query itself throws is not modelled. -/
def VectorStore.search (cfg : VectorStoreConfig) (st : VectorStoreState)
    (queryVector : List ℚ) (opts : SearchOptions)
    (ftsRank : String → List VectorChunk → List VectorChunk) :
    Except String (List SearchResult) :=
  match st.table with
  | none => .ok []
  | some rows =>
    let limit : Int := opts.limit.getD 10
    if limit < 1 ∨ 20 < limit then
      .error ("Invalid limit: expected 1-20, got " ++ toString limit)
    else
      let lim : Nat := limit.toNat
      let hybridWeight := cfg.hybridWeight.getD (3/5)
      let qtOk := match opts.queryText with
        | some q => q.data.any (fun c => !c.isWhitespace)
        | none => false
      let rawResults : List RawResult :=
        if st.ftsEnabled ∧ qtOk = true ∧ 0 < hybridWeight then
          let candidateLimit := lim * HYBRID_SEARCH_CANDIDATE_MULTIPLIER * 2
          let ftsResults := ((ftsRank (opts.queryText.getD "") rows).take
            candidateLimit).map toRawNoDist
          let vectorResults := (VectorStore.vectorSearch rows queryVector).take
            candidateLimit
          VectorStore.hybridRerank cfg ftsResults vectorResults candidateLimit
        else
          let pre : List RawResult := VectorStore.vectorSearch rows queryVector
          let pre2 : List RawResult := match cfg.maxDistance with
            | some md => pre.filter (fun r => decide (r.dist.getD 0 ≤ md))
            | none => pre
          pre2.take (lim * 3)
      let sr1 : List SearchResult := rawResults.map toSearchResultWithMetadata
      let sr2 : List SearchResult := match cfg.maxDistance with
        | some md => sr1.filter (fun r => decide (r.score ≤ md))
        | none => sr1
      let sr3 : List SearchResult := match opts.type with
        | some TypeFilter.memory => sr2.filter (fun r => isMemoryPath r.filePath)
        | some TypeFilter.file => sr2.filter (fun r => !(isMemoryPath r.filePath))
        | _ => sr2
      let sr4 : List SearchResult := match opts.tags with
        | some ts =>
          if ts ≠ [] then
            sr3.filter (fun r => ts.all (fun t => r.metadata.tags.contains t))
          else sr3
        | none => sr3
      let sr5 : List SearchResult := match opts.project with
        | some p =>
          if p ≠ "" then sr4.filter (fun r => r.metadata.project == some p)
          else sr4
        | none => sr4
      let sr6 : List SearchResult := match opts.minScore with
        | some ms => sr5.filter (fun r => decide (r.score ≤ ms))
        | none => sr5
      let sr7 : List SearchResult := match cfg.grouping with
        | some mode =>
          if 1 < sr6.length then VectorStore.applyGrouping sr6 mode else sr6
        | none => sr6
      .ok (sr7.take lim)

-- ============================================
-- Request handlers: query_documents and ingest_file
-- (src/unnamed/part_001)
-- ============================================

/-- JavaScript String.prototype.trim on the character list. -/
def trimStr (s : String) : String :=
  ⟨((s.data.dropWhile (fun c => c.isWhitespace)).reverse.dropWhile
    (fun c => c.isWhitespace)).reverse⟩

/-- validateTags: absent tags become the empty list; any tag that is
blank after trimming is rejected; surviving tags are trimmed.  The
non-array and non-string shape rejections concern dynamically typed
input and are outside the typed model. -/
def validateTags (tags : Option (List String)) : Except String (List String) :=
  match tags with
  | none => .ok []
  | some l =>
    if l.any (fun t => trimStr t = "") then .error "Tags cannot be empty strings"
    else .ok (l.map trimStr)

/-- validateTypeFilter: all, file or memory; anything else rejected. -/
def validateTypeFilter (t : Option String) : Except String (Option TypeFilter) :=
  match t with
  | none => .ok none
  | some s =>
    if s = "all" then .ok (some TypeFilter.all)
    else if s = "file" then .ok (some TypeFilter.file)
    else if s = "memory" then .ok (some TypeFilter.memory)
    else .error ("Invalid type filter: \"" ++ s ++
      "\". Must be one of: all, file, memory")

/-- validateMinScore: a number in 0..2, with distinct rejections for
negative values and values above 2. -/
def validateMinScore (m : Option ℚ) : Except String (Option ℚ) :=
  match m with
  | none => .ok none
  | some x =>
    if x < 0 then .error "minScore cannot be negative"
    else if 2 < x then
      .error "minScore must be <= 2 (LanceDB uses L2 distance, typical values are 0-2)"
    else .ok (some x)

/-- Arguments of the query_documents tool. -/
structure QueryArgs where
  query : String
  limit : Option Int := none
  type : Option String := none
  tags : Option (List String) := none
  project : Option String := none
  minScore : Option ℚ := none
deriving DecidableEq, Repr

/-- Rows of the query_documents response. -/
structure QueryResult where
  filePath : String
  chunkIndex : Nat
  text : String
  score : ℚ
deriving DecidableEq, Repr

/-- RAGServer.handleQueryDocuments: validate the filters, embed the
query, and search with queryText enabled; the limit option is the
JS-truthy coalescing args.limit || 10, so an absent or zero limit
becomes the default 10 before the store sees it.  Thrown errors are
rethrown unchanged by the handler. -/
def RAGServer.handleQueryDocuments (cfg : VectorStoreConfig)
    (st : VectorStoreState) (args : QueryArgs) (emb : EmbedderState)
    (ftsRank : String → List VectorChunk → List VectorChunk) :
    Except String (List QueryResult) :=
  match validateTypeFilter args.type with
  | .error e => .error e
  | .ok vt =>
  match validateTags args.tags with
  | .error e => .error e
  | .ok vtags =>
  match validateMinScore args.minScore with
  | .error e => .error e
  | .ok vms =>
  match Embedder.embed emb args.query with
  | .error e => .error e
  | .ok queryVector =>
    let opts : SearchOptions :=
      { queryText := some args.query,
        limit := some (match args.limit with
          | some l => if l = 0 then 10 else l
          | none => 10),
        type := vt,
        tags := if vtags ≠ [] then some vtags else none,
        project := (match args.project with
          | some p => if p ≠ "" then some p else none
          | none => none),
        minScore := vms }
    match VectorStore.search cfg st queryVector opts ftsRank with
    | .error e => .error e
    | .ok rs =>
      .ok (rs.map (fun r =>
        { filePath := r.filePath, chunkIndex := r.chunkIndex, text := r.text,
          score := r.score }))

/-- Arguments of the ingest_file tool. -/
structure IngestArgs where
  filePath : String
  tags : Option (List String) := none
  project : Option String := none
  global : Bool := false
deriving Repr

/-- Success payload of the ingest_file tool. -/
structure IngestResult where
  filePath : String
  chunkCount : Nat
  timestamp : String
deriving DecidableEq, Repr

/-- filePath.split of slashes, pop() || filePath. -/
def ingestFileName (fp : String) : String :=
  match (List.splitOn '/' fp.data).getLast? with
  | some l => if l.isEmpty then fp else ⟨l⟩
  | none => fp

/-- filePath.split of dots, pop() || the empty string. -/
def ingestFileType (fp : String) : String :=
  match (List.splitOn '.' fp.data).getLast? with
  | some l => ⟨l⟩
  | none => ""

/-- Construction of the new vector chunks of an ingest: each chunk is
paired with its embedding (a missing embedding throws), a fresh UUID
(allocated after the idBase UUIDs the backup consumed), and the file
metadata: memoryType file, the requested tags, the project only when
truthy and not overridden by global, no expiry, and createdAt,
updatedAt and timestamp all at the ingest instant. -/
def mkIngestChunks (args : IngestArgs) (text : String) (language : Option String)
    (chunks : List TextChunk) (embeddings : List (List ℚ))
    (freshId : Nat → String) (idBase : Nat) (nowTs : String) :
    Except String (List VectorChunk) :=
  chunks.enum.mapM (fun p =>
    match embeddings.get? p.1 with
    | none => .error ("Missing embedding for chunk " ++ toString p.1)
    | some emb => .ok
      { id := freshId (idBase + p.1), filePath := args.filePath,
        chunkIndex := p.2.index, text := p.2.text, vector := emb,
        metadata :=
          { fileName := ingestFileName args.filePath,
            fileSize := (text.length : Int),
            fileType := ingestFileType args.filePath,
            language := language,
            memoryType := some "file",
            tags := args.tags.getD [],
            project := (match args.project with
              | some p2 => if p2 ≠ "" ∧ ¬ args.global then some p2 else none
              | none => none),
            expiresAt := none,
            createdAt := some nowTs,
            updatedAt := some nowTs },
        timestamp := nowTs })

/-- Backup phase of handleIngestFile: look the file up in listFiles,
and when it exists with chunks and the first new embedding is
non-empty, retrieve at most 20 rows by searching with that embedding
as the query, keep those of the file, and rebuild them as chunks with
fresh ids, the current timestamp, and the query vector as a dummy
vector (the code comments that the actual vector cannot be retrieved).
Any failure leaves the backup null (warning only). -/
def RAGServer.backupPhase (cfg : VectorStoreConfig) (st : VectorStoreState)
    (filePath : String) (queryVector : List ℚ) (freshId : Nat → String)
    (nowTs : String)
    (ftsRank : String → List VectorChunk → List VectorChunk) :
    Option (List VectorChunk) :=
  match VectorStore.listFiles st none with
  | .error _ => none
  | .ok files =>
    match files.find? (fun f => decide (f.filePath = filePath)) with
    | none => none
    | some f =>
      if f.chunkCount = 0 then none
      else if queryVector.isEmpty then none
      else
        match VectorStore.search cfg st queryVector { limit := some 20 } ftsRank with
        | .error _ => none
        | .ok allChunks =>
          some ((allChunks.filter (fun c => decide (c.filePath = filePath))).enum.map
            (fun p =>
              { id := freshId p.1, filePath := p.2.filePath,
                chunkIndex := p.2.chunkIndex, text := p.2.text,
                vector := queryVector, metadata := p.2.metadata,
                timestamp := nowTs }))

/-- RAGServer.handleIngestFile: parse (text and language are the
parser's output), chunk, batch-embed, snapshot a best-effort backup,
delete the existing rows, insert the new rows; when the insert throws
and a non-empty backup exists, reinsert the backup, and when that also
throws surface the composite message (which appends only the insert
error's message, the constant DatabaseError text); the insert error
itself is rethrown after a successful rollback.  The outer catch
prefixes every thrown message with the handler prefix (production
surfaces messages, not stacks).  The final store state is returned
next to the outcome. -/
def RAGServer.handleIngestFile (cfg : VectorStoreConfig) (st : VectorStoreState)
    (args : IngestArgs) (text : String) (language : Option String)
    (splitter : String → List String) (emb : EmbedderState)
    (freshId : Nat → String) (nowTs : String)
    (ftsRank : String → List VectorChunk → List VectorChunk)
    (insertErr rollbackErr : Option String) :
    VectorStoreState × Except String IngestResult :=
  match DocumentChunker.chunkText (some splitter) text with
  | .error e => (st, .error ("Failed to ingest file: " ++ e))
  | .ok chunks =>
  match Embedder.embedBatch emb (chunks.map (fun c => c.text)) with
  | .error e => (st, .error ("Failed to ingest file: " ++ e))
  | .ok embeddings =>
    let queryVector := embeddings.headD []
    let backup := RAGServer.backupPhase cfg st args.filePath queryVector
      freshId nowTs ftsRank
    let backupLen := (backup.getD []).length
    match VectorStore.deleteChunks st args.filePath none with
    | .error e => (st, .error ("Failed to ingest file: " ++ e))
    | .ok st1 =>
    match mkIngestChunks args text language chunks embeddings freshId
        backupLen nowTs with
    | .error e => (st1, .error ("Failed to ingest file: " ++ e))
    | .ok vectorChunks =>
    match VectorStore.insertChunks st1 vectorChunks insertErr with
    | .ok st2 =>
      (st2,
        .ok { filePath := args.filePath, chunkCount := chunks.length, timestamp := nowTs })
    | .error insertMsg =>
      match backup with
      | some b =>
        if 0 < b.length then
          match VectorStore.insertChunks st1 b rollbackErr with
          | .ok st2 => (st2, .error ("Failed to ingest file: " ++ insertMsg))
          | .error _ =>
            (st1, .error ("Failed to ingest file: " ++
              ("Failed to ingest file and rollback failed: " ++ insertMsg)))
        else (st1, .error ("Failed to ingest file: " ++ insertMsg))
      | none => (st1, .error ("Failed to ingest file: " ++ insertMsg))

-- ============================================
-- Concrete example data used by witnesses and counterexamples
-- ============================================

/-- Search result with the given score, for the grouping example. -/
def c3Result (s : ℚ) : SearchResult :=
  { filePath := "/f", chunkIndex := 0, text := "t", score := s,
    metadata := { fileName := "f", fileSize := 1, fileType := "txt" } }

/-- Distance sequence of the spec's grouping scenario. -/
def c3Results : List SearchResult :=
  [c3Result (1/10), c3Result (12/100), c3Result (13/100),
   c3Result (55/100), c3Result (58/100)]

/-- Example row of a file unrelated to the witness delete. -/
def c9Row : VectorChunk :=
  { id := "id-other", filePath := "/base/other.txt", chunkIndex := 0,
    text := "other content", vector := [1],
    metadata := { fileName := "other.txt", fileSize := 13, fileType := "txt" },
    timestamp := "2025-01-01T00:00:00.000Z" }

/-- Example row with an elapsed expiry. -/
def c8RowExpired : VectorChunk :=
  { id := "id-exp", filePath := "memory://note-a", chunkIndex := 0,
    text := "expiring note", vector := [1],
    metadata := { fileName := "note-a", fileSize := 13, fileType := "text-snippet",
                  expiresAt := some "2025-01-01T00:00:00.000Z" },
    timestamp := "2024-12-01T00:00:00.000Z" }

/-- Example permanent row. -/
def c8RowKept : VectorChunk :=
  { id := "id-keep", filePath := "/base/keep.txt", chunkIndex := 0,
    text := "kept content", vector := [1],
    metadata := { fileName := "keep.txt", fileSize := 12, fileType := "txt" },
    timestamp := "2024-12-01T00:00:00.000Z" }

/-- Raw candidate for the fusion example. -/
def c4Raw (fp : String) (i : Nat) (d : Option ℚ) : RawResult :=
  { filePath := fp, chunkIndex := i, text := "t",
    metadata := { fileName := "f", fileSize := 1, fileType := "txt" }, dist := d }

/-- Dense candidate list of the fusion example (distinct keys). -/
def c4Vec : List RawResult := [c4Raw "/a" 0 (some 0), c4Raw "/b" 1 (some 1)]

/-- Lexical candidate list of the fusion example. -/
def c4Fts : List RawResult := [c4Raw "/a" 0 none]

/-- Pre-existing row of the re-ingest example. -/
def c1Row : VectorChunk :=
  { id := "id-old", filePath := "/f", chunkIndex := 0, text := "old",
    vector := [2],
    metadata := { fileName := "f", fileSize := 3, fileType := "txt" },
    timestamp := "TS-OLD" }

/-- Arguments of the re-ingest example. -/
def c1Args : IngestArgs := { filePath := "/f" }

/-- Splitter of the re-ingest example. -/
def c1Splitter : String → List String := fun _ => ["newchunk"]

/-- Embedder of the re-ingest example (every text embeds to [3]). -/
def c1Emb : EmbedderState := ⟨some (fun _ => .ok [3])⟩

/-- UUID supply of the re-ingest example. -/
def c1Ids : Nat → String := fun n => if n = 0 then "uuid-0" else "uuid-1"

/-- BM25 ranking oracle of the re-ingest example (unused: FTS is off). -/
def c1Rank : String → List VectorChunk → List VectorChunk := fun _ rows => rows

/-- The row the rollback reinserts in the example: same text, chunk
index and metadata as c1Row, but a fresh id, the rollback-time
timestamp, and the dummy query vector [3] instead of the original [2]. -/
def c1Backup : VectorChunk :=
  { id := "uuid-0", filePath := "/f", chunkIndex := 0, text := "old",
    vector := [3], metadata := c1Row.metadata, timestamp := "TS-NOW" }

/-- The new chunk row the failed insert would have written. -/
def c1New : VectorChunk :=
  { id := "uuid-1", filePath := "/f", chunkIndex := 0, text := "newchunk",
    vector := [3],
    metadata := { fileName := "f", fileSize := 7, fileType := "/f",
                  language := none, memoryType := some "file", tags := [],
                  project := none, expiresAt := none,
                  createdAt := some "TS-NOW", updatedAt := some "TS-NOW" },
    timestamp := "TS-NOW" }

-- ============================================
-- THEOREMS
-- ============================================

/-- Claim C2: the claim states that on an Embedder instance on which
initialize has not been called, the first embed or embedBatch call
triggers the model load and returns an embedding rather than failing.
The code does the opposite: both entry points throw the EmbeddingError
"Embedder is not initialized. Call initialize() first." whenever the
model reference is null, and never trigger a load, contradicting the
repository's own lazy-initialization test suite.  This theorem
evaluates the code at the failing inputs. -/
theorem embed_uninitialized_fails (text : String) (texts : List String) :
    Embedder.embed { model := none } text =
      .error "Embedder is not initialized. Call initialize() first." ∧
    Embedder.embedBatch { model := none } texts =
      .error "Embedder is not initialized. Call initialize() first." := by
  constructor <;> rfl

/-- Claim C6: the claim states that the chunker discards every window
whose text length is below 50 characters and renumbers the survivors.
The code performs no such filtering: chunkText enumerates every window
the splitter produced.  Evaluated on the input "Short." (for which the
splitter yields the single 6-character window "Short."), the code
returns that short window at index 0, while the claim and the
repository's own chunker tests require the empty output. -/
theorem chunkText_keeps_short_window :
    DocumentChunker.chunkText (some (fun _ => ["Short."])) "Short." =
      .ok [{ text := "Short.", index := 0 }] ∧
    "Short.".length < 50 := by
  constructor
  · rfl
  · decide

/-- Claim C5, counterexample: the claim states that a TTL of "1m"
starting at January 31 expires on February 28 (or February 29 in a
leap year).  The code calls setMonth(getMonth() + 1), whose MakeDay
semantics keeps the day-of-month 31 and rolls the overflow past
February into March: starting at 2025-01-31T00:00:00Z the computed
expiry is 2025-03-03, which is not February 28. -/
theorem calculateExpiresAt_1m_jan31_cex :
    calculateExpiresAt (some "1m") (daysFromCivil 2025 1 31 * msPerDay) =
      .ok (some (daysFromCivil 2025 3 3 * msPerDay)) ∧
    daysFromCivil 2025 3 3 * msPerDay ≠ daysFromCivil 2025 2 28 * msPerDay ∧
    civilFromDays (daysFromCivil 2025 3 3) = (2025, 3, 3) := by
  refine ⟨by rfl, by decide, by decide⟩

/-- Claim C5, amended: for TTL unit m the code advances the month
index by the value and keeps the day-of-month, with overflow past the
target month's length rolling into the following month (ECMAScript
setMonth), still calendar arithmetic rather than a fixed 30-day
window: from 2025-01-31 a "1m" TTL expires on 2025-03-03 (2024-03-02
in the 2024 leap year), which is neither February 28/29 nor the fixed
30-day window (2025-03-02), and from mid-month 2025-03-15 a "2m" TTL
expires exactly on 2025-05-15, not at a fixed 60-day offset
(2025-05-14). -/
theorem calculateExpiresAt_month_rollover :
    calculateExpiresAt (some "1m") (daysFromCivil 2025 1 31 * msPerDay) =
      .ok (some (daysFromCivil 2025 3 3 * msPerDay)) ∧
    calculateExpiresAt (some "1m") (daysFromCivil 2024 1 31 * msPerDay) =
      .ok (some (daysFromCivil 2024 3 2 * msPerDay)) ∧
    daysFromCivil 2025 3 3 * msPerDay ≠
      daysFromCivil 2025 1 31 * msPerDay + 30 * msPerDay ∧
    calculateExpiresAt (some "2m") (daysFromCivil 2025 3 15 * msPerDay) =
      .ok (some (daysFromCivil 2025 5 15 * msPerDay)) ∧
    daysFromCivil 2025 5 15 * msPerDay ≠
      daysFromCivil 2025 3 15 * msPerDay + 60 * msPerDay ∧
    civilFromDays (daysFromCivil 2025 5 15) = (2025, 5, 15) := by
  refine ⟨by rfl, by rfl, by decide, by rfl, by decide, by decide⟩

theorem setInsert_mem {α : Type} [DecidableEq α] (acc : List α) (a x : α) :
    x ∈ setInsert acc a ↔ x ∈ acc ∨ x = a := by
  unfold setInsert
  split
  · rename_i h
    constructor
    · exact fun hx => Or.inl hx
    · rintro (hx | rfl)
      · exact hx
      · exact h
  · simp

theorem foldl_setInsert_mem {α : Type} [DecidableEq α] (l : List α) (x : α) :
    ∀ acc, x ∈ l.foldl setInsert acc ↔ x ∈ acc ∨ x ∈ l := by
  induction l with
  | nil => intro acc; simp
  | cons y ys ih =>
    intro acc
    rw [List.foldl_cons, ih, setInsert_mem]
    simp only [List.mem_cons]
    tauto

theorem mem_insertOrderDedup {α : Type} [DecidableEq α] (l : List α) (x : α) :
    x ∈ insertOrderDedup l ↔ x ∈ l := by
  unfold insertOrderDedup
  rw [foldl_setInsert_mem]
  simp

theorem nodup_setInsert {α : Type} [DecidableEq α] (acc : List α) (a : α)
    (h : acc.Nodup) : (setInsert acc a).Nodup := by
  unfold setInsert
  split
  · exact h
  · rename_i ha
    rw [List.nodup_append]
    refine ⟨h, List.nodup_singleton a, ?_⟩
    intro x hx hxa
    rw [List.mem_singleton] at hxa
    exact ha (hxa ▸ hx)

theorem nodup_insertOrderDedup {α : Type} [DecidableEq α] (l : List α) :
    (insertOrderDedup l).Nodup := by
  have h : ∀ acc : List α, acc.Nodup → (l.foldl setInsert acc).Nodup := by
    induction l with
    | nil => intro acc h; simpa using h
    | cons y ys ih => intro acc h; exact ih _ (nodup_setInsert _ _ h)
  exact h [] List.nodup_nil

/-- Claim C9: delete_file is idempotent.  Under a path that both the
parser validator and the store validator accept: deleting a source
with no rows succeeds and leaves the state unchanged; two consecutive
delete calls both return the success payload and the second leaves the
state of the first untouched; and an engine error during the delete is
swallowed exactly when its lowercased message contains "not found",
"does not exist" or "no matching", every other engine error being
surfaced as the wrapped DatabaseError. -/
theorem deleteFile_idempotent (baseDir fp : String) (st : VectorStoreState)
    (ts1 ts2 : String)
    (hpv : DocumentParser.validateFilePath baseDir fp = .ok ())
    (hsv : validateFilePath fp = .ok ()) :
    (∀ rows, st.table = some rows → fp ∉ rows.map (fun r => r.filePath) →
        RAGServer.handleDeleteFile baseDir st fp none ts1 =
          (st, .ok { filePath := fp, deleted := true, timestamp := ts1 })) ∧
    ((RAGServer.handleDeleteFile baseDir st fp none ts1).2 =
        .ok { filePath := fp, deleted := true, timestamp := ts1 } ∧
      (RAGServer.handleDeleteFile baseDir
          (RAGServer.handleDeleteFile baseDir st fp none ts1).1 fp none ts2).2 =
        .ok { filePath := fp, deleted := true, timestamp := ts2 } ∧
      (RAGServer.handleDeleteFile baseDir
          (RAGServer.handleDeleteFile baseDir st fp none ts1).1 fp none ts2).1 =
        (RAGServer.handleDeleteFile baseDir st fp none ts1).1) ∧
    (∀ rows fts msg,
        (RAGServer.handleDeleteFile baseDir ⟨some rows, fts⟩ fp (some msg) ts1).2 =
          (if deleteSwallowedMsg msg then
            .ok { filePath := fp, deleted := true, timestamp := ts1 }
           else
            .error ("Failed to delete file: " ++
              ("Failed to delete chunks for file: " ++ fp)))) := by
  obtain ⟨tab, fts0⟩ := st
  refine ⟨?_, ?_, ?_⟩
  · intro rows htab hmem
    simp only at htab
    subst htab
    have hself : rows.filter (fun r => r.filePath != fp) = rows := by
      apply List.filter_eq_self.mpr
      intro a ha
      rw [bne_iff_ne]
      intro hcontra
      exact hmem (List.mem_map.mpr ⟨a, ha, hcontra⟩)
    simp [RAGServer.handleDeleteFile, VectorStore.deleteChunks, hpv, hsv, hself]
  · cases tab with
    | none =>
      simp [RAGServer.handleDeleteFile, VectorStore.deleteChunks, hpv, hsv]
    | some rows =>
      have hstep : ∀ l : List VectorChunk,
          (l.filter (fun r => r.filePath != fp)).filter (fun r => r.filePath != fp)
            = l.filter (fun r => r.filePath != fp) := by
        intro l
        apply List.filter_eq_self.mpr
        intro a ha
        exact (List.mem_filter.mp ha).2
      simp [RAGServer.handleDeleteFile, VectorStore.deleteChunks, hpv, hsv, hstep]
  · intro rows fts msg
    by_cases hsw : deleteSwallowedMsg msg
    · simp [RAGServer.handleDeleteFile, VectorStore.deleteChunks, hpv, hsv, hsw]
    · simp [RAGServer.handleDeleteFile, VectorStore.deleteChunks, hpv, hsv, hsw]

theorem deleteFile_idempotent_witness :
    (RAGServer.handleDeleteFile "/base" ⟨some [c9Row], false⟩ "/base/doc.txt"
        none "t1").2 =
      .ok { filePath := "/base/doc.txt", deleted := true, timestamp := "t1" } :=
  (deleteFile_idempotent "/base" "/base/doc.txt" ⟨some [c9Row], false⟩ "t1" "t2"
    rfl rfl).2.1.1

theorem isExpiredRow_congr (r r2 : VectorChunk) (now : String)
    (h : r.metadata.expiresAt = r2.metadata.expiresAt) :
    isExpiredRow r now = isExpiredRow r2 now := by
  unfold isExpiredRow
  rw [h]

theorem cleanup_fold_deletes (fts : Bool) (ps : List String) :
    ∀ (rows : List VectorChunk) (c : Nat),
      (∀ p ∈ ps, validateFilePath p = .ok ()) →
      ps.foldlM (fun acc fp =>
          (VectorStore.deleteChunks acc.1 fp none).map (fun s => (s, acc.2 + 1)))
        ((⟨some rows, fts⟩ : VectorStoreState), c) =
        .ok (⟨some (rows.filter (fun r => !(ps.contains r.filePath))), fts⟩,
          c + ps.length) := by
  induction ps with
  | nil =>
    intro rows c _
    have hid : rows.filter (fun r => !(List.contains [] r.filePath)) = rows :=
      List.filter_eq_self.mpr (fun a _ => rfl)
    rw [List.foldlM_nil, hid]
    rfl
  | cons fp ps ih =>
    intro rows c hval
    have hfp : validateFilePath fp = .ok () := hval fp (by simp)
    have hdel : VectorStore.deleteChunks (⟨some rows, fts⟩ : VectorStoreState) fp none =
        .ok ⟨some (rows.filter (fun r => r.filePath != fp)), fts⟩ := by
      simp [VectorStore.deleteChunks, hfp]
    have hrec := ih (rows.filter (fun r => r.filePath != fp)) (c + 1)
      (fun p hp => hval p (List.mem_cons_of_mem fp hp))
    rw [List.foldlM_cons]
    simp only [hdel]
    show List.foldlM (fun (acc : VectorStoreState × Nat) fp =>
        (VectorStore.deleteChunks acc.1 fp none).map (fun s => (s, acc.2 + 1)))
      ((⟨some (rows.filter (fun r => r.filePath != fp)), fts⟩ :
        VectorStoreState), c + 1) ps = _
    rw [hrec]
    have hfilter : (rows.filter (fun r => r.filePath != fp)).filter
        (fun r => !(ps.contains r.filePath)) =
        rows.filter (fun r => !((fp :: ps).contains r.filePath)) := by
      rw [List.filter_filter]
      apply List.filter_congr
      intro r _
      show (!(ps.contains r.filePath) && (r.filePath != fp)) =
        !((fp :: ps).contains r.filePath)
      rw [List.contains_cons]
      cases h1 : r.filePath == fp <;> cases h2 : ps.contains r.filePath <;>
        simp [bne, h1, h2]
    rw [hfilter]
    have harith : c + 1 + ps.length = c + (ps.length + 1) := by omega
    rw [harith]
    rfl

/-- Claim C8: cleanupExpired deletes every row of a filePath exactly
when that filePath has a non-null expiresAt strictly below now, and
returns the count of distinct deleted sources.  The hypotheses are the
data-model invariants of the store: every persisted filePath passes
the store validator, and all rows of one filePath share their
metadata expiry. -/
theorem cleanupExpired_removes_expired (rows : List VectorChunk) (fts : Bool)
    (now : String)
    (hval : ∀ r ∈ rows, validateFilePath r.filePath = .ok ())
    (hshare : ∀ r ∈ rows, ∀ r2 ∈ rows, r.filePath = r2.filePath →
        r.metadata.expiresAt = r2.metadata.expiresAt) :
    VectorStore.cleanupExpired ⟨some rows, fts⟩ now =
      .ok (⟨some (rows.filter (fun r => !(isExpiredRow r now))), fts⟩,
        (insertOrderDedup ((rows.filter (fun r => isExpiredRow r now)).map
          (fun r => r.filePath))).length) ∧
    (insertOrderDedup ((rows.filter (fun r => isExpiredRow r now)).map
      (fun r => r.filePath))).Nodup ∧
    (∀ p, p ∈ insertOrderDedup ((rows.filter (fun r => isExpiredRow r now)).map
        (fun r => r.filePath)) ↔
      ∃ r ∈ rows, isExpiredRow r now ∧ r.filePath = p) := by
  have hmemE : ∀ p, p ∈ insertOrderDedup ((rows.filter
      (fun r => isExpiredRow r now)).map (fun r => r.filePath)) ↔
      ∃ r ∈ rows, isExpiredRow r now ∧ r.filePath = p := by
    intro p
    rw [mem_insertOrderDedup]
    simp only [List.mem_map, List.mem_filter]
    constructor
    · rintro ⟨r, ⟨hr, hexp⟩, rfl⟩
      exact ⟨r, hr, hexp, rfl⟩
    · rintro ⟨r, hr, hexp, rfl⟩
      exact ⟨r, ⟨hr, hexp⟩, rfl⟩
  refine ⟨?_, nodup_insertOrderDedup _, hmemE⟩
  have hvalE : ∀ p ∈ insertOrderDedup ((rows.filter
      (fun r => isExpiredRow r now)).map (fun r => r.filePath)),
      validateFilePath p = .ok () := by
    intro p hp
    obtain ⟨r, hr, _, rfl⟩ := (hmemE p).mp hp
    exact hval r hr
  have hfold := cleanup_fold_deletes fts
    (insertOrderDedup ((rows.filter (fun r => isExpiredRow r now)).map
      (fun r => r.filePath))) rows 0 hvalE
  have hfilter : rows.filter (fun r =>
      !((insertOrderDedup ((rows.filter (fun r2 => isExpiredRow r2 now)).map
        (fun r2 => r2.filePath))).contains r.filePath)) =
      rows.filter (fun r => !(isExpiredRow r now)) := by
    apply List.filter_congr
    intro r hr
    have : (insertOrderDedup ((rows.filter (fun r2 => isExpiredRow r2 now)).map
        (fun r2 => r2.filePath))).contains r.filePath = isExpiredRow r now := by
      by_cases hexp : isExpiredRow r now = true
      · have : r.filePath ∈ insertOrderDedup ((rows.filter
            (fun r2 => isExpiredRow r2 now)).map (fun r2 => r2.filePath)) :=
          (hmemE r.filePath).mpr ⟨r, hr, hexp, rfl⟩
        rw [hexp]
        exact List.elem_eq_true_of_mem this
      · have hne : r.filePath ∉ insertOrderDedup ((rows.filter
            (fun r2 => isExpiredRow r2 now)).map (fun r2 => r2.filePath)) := by
          intro hmem
          obtain ⟨r2, hr2, hexp2, hpath⟩ := (hmemE r.filePath).mp hmem
          have := isExpiredRow_congr r r2 now
            (hshare r hr r2 hr2 hpath.symm)
          rw [this, hexp2] at hexp
          exact hexp rfl
        rw [Bool.eq_false_iff.mpr hexp]
        exact Bool.eq_false_iff.mpr (fun hc => hne (List.mem_of_elem_eq_true hc))
    rw [this]
  unfold VectorStore.cleanupExpired
  simp only []
  rw [hfold, hfilter]
  simp

theorem cleanupExpired_removes_expired_witness :
    VectorStore.cleanupExpired ⟨some [c8RowExpired, c8RowKept], false⟩
        "2025-06-01T00:00:00.000Z" =
      .ok (⟨some ([c8RowExpired, c8RowKept].filter
          (fun r => !(isExpiredRow r "2025-06-01T00:00:00.000Z"))), false⟩,
        (insertOrderDedup (([c8RowExpired, c8RowKept].filter
          (fun r => isExpiredRow r "2025-06-01T00:00:00.000Z")).map
          (fun r => r.filePath))).length) :=
  (cleanupExpired_removes_expired [c8RowExpired, c8RowKept] false
    "2025-06-01T00:00:00.000Z"
    (by
      intro r hr
      simp only [List.mem_cons, List.not_mem_nil, or_false] at hr
      rcases hr with rfl | rfl <;> rfl)
    (by
      intro r hr r2 hr2 hpath
      simp only [List.mem_cons, List.not_mem_nil, or_false] at hr hr2
      rcases hr with rfl | rfl <;> rcases hr2 with rfl | rfl <;>
        first
        | rfl
        | exact absurd hpath (by decide))).1

theorem gapVariance_nonneg (gv : List ℚ) : 0 ≤ gapVariance gv := by
  unfold gapVariance
  apply div_nonneg
  · apply List.sum_nonneg
    intro x hx
    obtain ⟨b, _, rfl⟩ := List.mem_map.mp hx
    positivity
  · positivity

theorem gapExceeds_iff_real (gap mean variance : ℚ) (h : 0 ≤ variance) :
    gapExceeds gap mean variance = true ↔
      (mean : ℝ) + (3 / 2) * Real.sqrt (variance : ℝ) < (gap : ℝ) := by
  unfold gapExceeds
  rw [decide_eq_true_iff]
  have hv : (0 : ℝ) ≤ (variance : ℝ) := by exact_mod_cast h
  have hs : (0 : ℝ) ≤ Real.sqrt (variance : ℝ) := Real.sqrt_nonneg _
  have hsq : Real.sqrt (variance : ℝ) ^ 2 = (variance : ℝ) := Real.sq_sqrt hv
  constructor
  · rintro ⟨hpos, hlt⟩
    have hpos' : (0 : ℝ) < (gap : ℝ) - (mean : ℝ) := by exact_mod_cast hpos
    have hlt' : ((9 / 4 * variance : ℚ) : ℝ) < (((gap - mean) ^ 2 : ℚ) : ℝ) := by
      exact_mod_cast hlt
    push_cast at hlt'
    nlinarith [hs, hsq, hpos', hlt']
  · intro hlt
    have hpos' : (0 : ℝ) < (gap : ℝ) - (mean : ℝ) := by nlinarith [hs]
    have hlt' : ((9 / 4 * variance : ℚ) : ℝ) < (((gap - mean) ^ 2 : ℚ) : ℝ) := by
      push_cast
      nlinarith [hs, hsq, hpos']
    constructor
    · exact_mod_cast hpos'
    · exact_mod_cast hlt'

/-- Claim C3: on a result list sorted ascending by distance, the
code's applyGrouping computes exactly the specification's grouping
filter: consecutive gaps, threshold mean + 1.5 times the population
standard deviation (rendered exactly by gapExceeds), boundaries at the
indices whose gap exceeds the threshold, truncation at the first
boundary in similar mode and at the second in related mode with all
results kept when fewer than two boundaries exist, and the input
returned unchanged for at most one result or no exceeding gap. -/
theorem applyGrouping_eq_groupingSpec (results : List SearchResult)
    (mode : GroupingMode)
    (_hsorted : List.Chain' (fun a b => a.score ≤ b.score) results) :
    VectorStore.applyGrouping results mode = groupingSpec results mode := by
  clear _hsorted
  unfold VectorStore.applyGrouping groupingSpec
  by_cases hlen : results.length ≤ 1
  · simp [hlen]
  · simp only [if_neg hlen]
    by_cases hg : (groupingGaps results).isEmpty
    · have hb : groupingBoundaries results = [] := by
        unfold groupingBoundaries
        rw [List.isEmpty_iff] at hg
        simp [hg]
      simp [hg, hb]
    · simp only [hg, Bool.false_eq_true, if_false]
      cases mode <;>
        rcases hbs : groupingBoundaries results with _ | ⟨b, _ | ⟨b2, bs⟩⟩ <;>
          simp [hbs]

theorem applyGrouping_eq_groupingSpec_witness :
    List.Chain' (fun a b => a.score ≤ b.score) c3Results ∧
    VectorStore.applyGrouping c3Results GroupingMode.similar =
      groupingSpec c3Results GroupingMode.similar := by
  have hchain : List.Chain' (fun a b => a.score ≤ b.score) c3Results := by
    norm_num [c3Results, c3Result, List.chain'_cons]
  exact ⟨hchain, applyGrouping_eq_groupingSpec c3Results GroupingMode.similar hchain⟩

theorem fusionGet_nil (k : String × Nat) : fusionGet [] k = none := rfl

theorem fusionGet_cons (e : (String × Nat) × RawResult × ℚ) (es : FusionMap)
    (k : String × Nat) :
    fusionGet (e :: es) k = if e.1 = k then some e.2 else fusionGet es k := by
  by_cases h : e.1 = k <;> simp [fusionGet, List.find?, h]

theorem fusionGet_fusionSet (m : FusionMap) (k k' : String × Nat)
    (v : RawResult × ℚ) :
    fusionGet (fusionSet m k v) k' =
      if k' = k then some v else fusionGet m k' := by
  induction m with
  | nil =>
    by_cases h : k' = k
    · subst h; simp [fusionSet, fusionGet_cons]
    · simp [fusionSet, fusionGet_cons, fusionGet_nil, h, Ne.symm h]
  | cons e es ih =>
    simp only [fusionSet]
    by_cases hek : e.1 = k
    · rw [if_pos hek]
      by_cases h : k' = k
      · subst h; simp [fusionGet_cons]
      · have hek' : e.1 ≠ k' := by rw [hek]; exact Ne.symm h
        rw [fusionGet_cons, fusionGet_cons, if_neg (Ne.symm h), if_neg hek',
          if_neg h]
    · rw [if_neg hek]
      rw [fusionGet_cons, fusionGet_cons, ih]
      by_cases h : k' = k
      · subst h; simp [hek]
      · simp [h]

theorem fusionGet_fusionAdd (m : FusionMap) (k k' : String × Nat) (q : ℚ) :
    fusionGet (fusionAdd m k q) k' =
      if k' = k then (fusionGet m k).map (fun v => (v.1, v.2 + q))
      else fusionGet m k' := by
  induction m with
  | nil =>
    by_cases h : k' = k <;> simp [fusionAdd, fusionGet_nil, h]
  | cons e es ih =>
    simp only [fusionAdd]
    by_cases hek : e.1 = k
    · rw [if_pos hek]
      by_cases h : k' = k
      · subst h
        simp [fusionGet_cons, hek]
      · have hek' : e.1 ≠ k' := by rw [hek]; exact Ne.symm h
        simp [fusionGet_cons, hek', h]
    · rw [if_neg hek]
      by_cases h : k' = k
      · subst h
        simp [fusionGet_cons, hek, ih]
      · simp [fusionGet_cons, ih, h]

theorem mem_keys_fusionSet (m : FusionMap) (k : String × Nat)
    (v : RawResult × ℚ) (k' : String × Nat) :
    k' ∈ (fusionSet m k v).map (fun e => e.1) ↔
      k' ∈ m.map (fun e => e.1) ∨ k' = k := by
  induction m with
  | nil => simp [fusionSet]
  | cons e es ih =>
    simp only [fusionSet]
    by_cases hek : e.1 = k
    · rw [if_pos hek]
      simp only [List.map_cons, List.mem_cons, hek]
      tauto
    · rw [if_neg hek]
      simp only [List.map_cons, List.mem_cons, ih]
      tauto

theorem nodup_keys_fusionSet (m : FusionMap) (k : String × Nat)
    (v : RawResult × ℚ) (h : (m.map (fun e => e.1)).Nodup) :
    ((fusionSet m k v).map (fun e => e.1)).Nodup := by
  induction m with
  | nil => simp [fusionSet]
  | cons e es ih =>
    simp only [List.map_cons, List.nodup_cons] at h
    simp only [fusionSet]
    by_cases hek : e.1 = k
    · rw [if_pos hek]
      simp only [List.map_cons, List.nodup_cons]
      exact ⟨hek ▸ h.1, h.2⟩
    · rw [if_neg hek]
      simp only [List.map_cons, List.nodup_cons]
      refine ⟨?_, ih h.2⟩
      rw [mem_keys_fusionSet]
      rintro (hmem | rfl)
      · exact h.1 hmem
      · exact hek rfl

theorem keys_fusionAdd (m : FusionMap) (k : String × Nat) (q : ℚ) :
    (fusionAdd m k q).map (fun e => e.1) = m.map (fun e => e.1) := by
  induction m with
  | nil => rfl
  | cons e es ih =>
    simp only [fusionAdd]
    by_cases hek : e.1 = k
    · rw [if_pos hek]
      simp [ih]
    · rw [if_neg hek]
      simp [ih]

theorem entries_fusionSet (m : FusionMap) (k : String × Nat)
    (v : RawResult × ℚ) (hm : ∀ e ∈ m, rawKey e.2.1 = e.1)
    (hv : rawKey v.1 = k) :
    ∀ e ∈ fusionSet m k v, rawKey e.2.1 = e.1 := by
  induction m with
  | nil =>
    intro e he
    simp only [fusionSet, List.mem_singleton] at he
    subst he
    exact hv
  | cons f fs ih =>
    intro e he
    simp only [fusionSet] at he
    by_cases hfk : f.1 = k
    · rw [if_pos hfk] at he
      rcases List.mem_cons.mp he with rfl | hmem
      · exact hv
      · exact hm e (List.mem_cons_of_mem f hmem)
    · rw [if_neg hfk] at he
      rcases List.mem_cons.mp he with rfl | hmem
      · exact hm _ (List.mem_cons.mpr (Or.inl rfl))
      · exact ih (fun e2 he2 => hm e2 (List.mem_cons_of_mem f he2)) e hmem

theorem entries_fusionAdd (m : FusionMap) (k : String × Nat) (q : ℚ)
    (hm : ∀ e ∈ m, rawKey e.2.1 = e.1) :
    ∀ e ∈ fusionAdd m k q, rawKey e.2.1 = e.1 := by
  induction m with
  | nil => intro e he; cases he
  | cons f fs ih =>
    intro e he
    simp only [fusionAdd] at he
    by_cases hfk : f.1 = k
    · rw [if_pos hfk] at he
      rcases List.mem_cons.mp he with rfl | hmem
      · exact hm f (List.mem_cons_self f fs)
      · exact hm e (List.mem_cons_of_mem f hmem)
    · rw [if_neg hfk] at he
      rcases List.mem_cons.mp he with rfl | hmem
      · exact hm _ (List.mem_cons.mpr (Or.inl rfl))
      · exact ih (fun e2 he2 => hm e2 (List.mem_cons_of_mem f he2)) e hmem

theorem FusionWF_vecFoldStep (w : ℚ) (m : FusionMap) (r : RawResult)
    (h : FusionWF m) : FusionWF (vecFoldStep w m r) := by
  unfold vecFoldStep
  exact ⟨nodup_keys_fusionSet m _ _ h.1, entries_fusionSet m _ _ h.2 rfl⟩

theorem FusionWF_ftsFoldStep (w : ℚ) (n : Nat) (m : FusionMap)
    (p : Nat × RawResult) (h : FusionWF m) : FusionWF (ftsFoldStep w n m p) := by
  unfold ftsFoldStep
  cases fusionGet m (rawKey p.2) with
  | some v =>
    refine ⟨?_, entries_fusionAdd m _ _ h.2⟩
    rw [keys_fusionAdd]
    exact h.1
  | none =>
    exact ⟨nodup_keys_fusionSet m _ _ h.1, entries_fusionSet m _ _ h.2 rfl⟩

theorem FusionWF_vecFold (w : ℚ) (vec : List RawResult) :
    ∀ acc, FusionWF acc → FusionWF (vec.foldl (vecFoldStep w) acc) := by
  induction vec with
  | nil => intro acc h; exact h
  | cons r vec ih =>
    intro acc h
    exact ih _ (FusionWF_vecFoldStep w acc r h)

theorem FusionWF_ftsFold (w : ℚ) (n : Nat) (ps : List (Nat × RawResult)) :
    ∀ m, FusionWF m → FusionWF (ps.foldl (ftsFoldStep w n) m) := by
  induction ps with
  | nil => intro m h; exact h
  | cons p ps ih =>
    intro m h
    exact ih _ (FusionWF_ftsFoldStep w n m p h)

theorem fusionGet_of_mem (m : FusionMap)
    (hnd : (m.map (fun e => e.1)).Nodup)
    (e : (String × Nat) × RawResult × ℚ) (he : e ∈ m) :
    fusionGet m e.1 = some e.2 := by
  induction m with
  | nil => cases he
  | cons f fs ih =>
    simp only [List.map_cons, List.nodup_cons] at hnd
    rw [fusionGet_cons]
    rcases List.mem_cons.mp he with rfl | hmem
    · rw [if_pos rfl]
    · by_cases hf : f.1 = e.1
      · exfalso
        exact hnd.1 (hf ▸ List.mem_map_of_mem (fun x => x.1) hmem)
      · rw [if_neg hf]
        exact ih hnd.2 hmem

theorem getScoreD_vecFold (w : ℚ) (vec : List RawResult) :
    ∀ (acc : FusionMap) (k : String × Nat),
      (vec.map rawKey).Nodup →
      (∀ r ∈ vec, fusionGet acc (rawKey r) = none) →
      getScoreD (vec.foldl (vecFoldStep w) acc) k =
        getScoreD acc k +
          ((vec.filter (fun r => decide (rawKey r = k))).map
            (fun r => max 0 (1 - r.dist.getD 1 / 2) * w)).sum := by
  induction vec with
  | nil => intro acc k _ _; simp
  | cons r vec ih =>
    intro acc k hnd hdisj
    rw [List.foldl_cons]
    simp only [List.map_cons, List.nodup_cons] at hnd
    have hdisj' : ∀ r2 ∈ vec,
        fusionGet (vecFoldStep w acc r) (rawKey r2) = none := by
      intro r2 hr2
      unfold vecFoldStep
      rw [fusionGet_fusionSet]
      have hne : rawKey r2 ≠ rawKey r := fun hc =>
        hnd.1 (hc ▸ List.mem_map_of_mem rawKey hr2)
      rw [if_neg hne]
      exact hdisj r2 (List.mem_cons_of_mem r hr2)
    rw [ih (vecFoldStep w acc r) k hnd.2 hdisj']
    by_cases hk : rawKey r = k
    · have hacc0 : getScoreD acc k = 0 := by
        unfold getScoreD
        rw [← hk, hdisj r (List.mem_cons_self r vec)]
      have hstep : getScoreD (vecFoldStep w acc r) k =
          max 0 (1 - r.dist.getD 1 / 2) * w := by
        unfold getScoreD vecFoldStep
        rw [fusionGet_fusionSet, if_pos hk.symm]
      have htail : vec.filter (fun r2 => decide (rawKey r2 = k)) = [] := by
        apply List.filter_eq_nil_iff.mpr
        intro a ha
        simp only [decide_eq_true_eq]
        intro hc
        exact hnd.1 ((hk ▸ hc : rawKey a = rawKey r) ▸ List.mem_map_of_mem rawKey ha)
      rw [hstep, hacc0, List.filter_cons_of_pos (by simp [hk]), htail]
      simp
    · have hstep : getScoreD (vecFoldStep w acc r) k = getScoreD acc k := by
        unfold getScoreD vecFoldStep
        rw [fusionGet_fusionSet, if_neg (fun hc => hk hc.symm)]
      rw [hstep, List.filter_cons_of_neg (by simp [hk])]

theorem getScoreD_ftsFold (w : ℚ) (n : Nat) (ps : List (Nat × RawResult)) :
    ∀ (m : FusionMap) (k : String × Nat),
      getScoreD (ps.foldl (ftsFoldStep w n) m) k =
        getScoreD m k +
          ((ps.filter (fun p => decide (rawKey p.2 = k))).map
            (fun p => (1 - (p.1 : ℚ) / (n : ℚ)) * w)).sum := by
  induction ps with
  | nil => intro m k; simp
  | cons p ps ih =>
    intro m k
    rw [List.foldl_cons, ih]
    have hstep : getScoreD (ftsFoldStep w n m p) k =
        getScoreD m k +
          (if rawKey p.2 = k then (1 - (p.1 : ℚ) / (n : ℚ)) * w else 0) := by
      unfold ftsFoldStep
      cases hg : fusionGet m (rawKey p.2) with
      | some v =>
        unfold getScoreD
        rw [fusionGet_fusionAdd]
        by_cases hk : k = rawKey p.2
        · rw [if_pos hk, hk, hg]
          simp [if_pos hk.symm]
        · rw [if_neg hk, if_neg (fun hc => hk hc.symm)]
          simp
      | none =>
        unfold getScoreD
        rw [fusionGet_fusionSet]
        by_cases hk : k = rawKey p.2
        · rw [if_pos hk, hk, hg]
          simp [if_pos hk.symm]
        · rw [if_neg hk, if_neg (fun hc => hk hc.symm)]
          simp
    rw [hstep]
    by_cases hk : rawKey p.2 = k
    · rw [List.filter_cons_of_pos (by simp [hk]), List.map_cons, List.sum_cons,
        if_pos hk]
      ring
    · rw [List.filter_cons_of_neg (by simp [hk]), if_neg hk]
      ring

/-- Claim C4: hybrid fusion.  When the vector candidate list carries
pairwise distinct (filePath, chunkIndex) keys (the uniqueness invariant
of the table a search reads), every result of hybridRerank carries the
synthetic distance one minus the fused score of its key, where the
fused score sums max(0, 1 - d/2) times (1 - hybridWeight) over the
dense candidates of the key and (1 - i/N) times hybridWeight over the
lexical candidates of the key at rank i of N; and the output is sorted
descending by fused score (its synthetic distances ascend). -/
theorem hybridRerank_fusion (cfg : VectorStoreConfig)
    (ftsResults vectorResults : List RawResult) (limit : Nat)
    (hnd : (vectorResults.map rawKey).Nodup) :
    (∀ r ∈ VectorStore.hybridRerank cfg ftsResults vectorResults limit,
        r.dist = some (1 - fusedScore ftsResults vectorResults
          (cfg.hybridWeight.getD (3/5)) (rawKey r))) ∧
    List.Chain' (fun a b => a.dist.getD 0 ≤ b.dist.getD 0)
      (VectorStore.hybridRerank cfg ftsResults vectorResults limit) := by
  set w := cfg.hybridWeight.getD (3/5) with hw
  set M := ftsResults.enum.foldl (ftsFoldStep w ftsResults.length)
    (vectorResults.foldl (vecFoldStep (1 - w)) []) with hM
  have hwid : VectorStore.hybridRerank cfg ftsResults vectorResults limit =
      ((M.mergeSort (fun a b => decide (b.2.2 ≤ a.2.2))).take limit).map
        (fun e => { e.2.1 with dist := some (1 - e.2.2) }) := rfl
  have hMwf : FusionWF M := by
    rw [hM]
    exact FusionWF_ftsFold _ _ _ _
      (FusionWF_vecFold _ _ _ ⟨List.nodup_nil, by simp⟩)
  have hscore : ∀ e ∈ M, e.2.2 = fusedScore ftsResults vectorResults w e.1 := by
    intro e he
    have hget : fusionGet M e.1 = some e.2 := fusionGet_of_mem M hMwf.1 e he
    have hgd : getScoreD M e.1 = e.2.2 := by unfold getScoreD; rw [hget]
    rw [← hgd, hM, getScoreD_ftsFold,
      getScoreD_vecFold (1 - w) vectorResults [] e.1 hnd
        (fun r _ => fusionGet_nil (rawKey r))]
    unfold fusedScore denseContribution ftsContribution getScoreD
    rw [fusionGet_nil]
    ring
  have hperm := List.mergeSort_perm M (fun a b => decide (b.2.2 ≤ a.2.2))
  constructor
  · intro r hr
    rw [hwid] at hr
    obtain ⟨e, he, rfl⟩ := List.mem_map.mp hr
    have heM : e ∈ M := hperm.mem_iff.mp (List.mem_of_mem_take he)
    have hk : rawKey e.2.1 = e.1 := hMwf.2 e heM
    show some (1 - e.2.2) = some (1 - fusedScore ftsResults vectorResults w
      (rawKey { e.2.1 with dist := some (1 - e.2.2) }))
    have hkeep : rawKey { e.2.1 with dist := some (1 - e.2.2) } = rawKey e.2.1 := rfl
    rw [hkeep, hk, ← hscore e heM]
  · rw [hwid]
    apply List.Pairwise.chain'
    rw [List.pairwise_map]
    have hsorted : List.Pairwise
        (fun a b => (fun a b => decide (b.2.2 ≤ a.2.2)) a b = true)
        (M.mergeSort (fun a b => decide (b.2.2 ≤ a.2.2))) := by
      apply List.sorted_mergeSort
      · intro a b c hab hbc
        simp only [decide_eq_true_eq] at hab hbc ⊢
        exact le_trans hbc hab
      · intro a b
        simp only [Bool.or_eq_true, decide_eq_true_eq]
        exact le_total b.2.2 a.2.2
    have hp2 := hsorted.sublist (List.take_sublist limit _)
    apply hp2.imp
    intro a b hab
    simp only [decide_eq_true_eq] at hab
    show ({ a.2.1 with dist := some (1 - a.2.2) } : RawResult).dist.getD 0 ≤
      ({ b.2.1 with dist := some (1 - b.2.2) } : RawResult).dist.getD 0
    simp only [Option.getD_some]
    linarith

theorem hybridRerank_fusion_witness :
    (c4Vec.map rawKey).Nodup ∧
    ∀ r ∈ VectorStore.hybridRerank {} c4Fts c4Vec 5,
      r.dist = some (1 - fusedScore c4Fts c4Vec
        (({} : VectorStoreConfig).hybridWeight.getD (3/5)) (rawKey r)) :=
  ⟨by decide, (hybridRerank_fusion {} c4Fts c4Vec 5 (by decide)).1⟩

/-- Claim C10: every read operation on a store whose backing table has
not been created returns a benign empty result: search and listFiles
and getMemoryByLabel return the empty list (search short-circuits even
before validating its limit), and getStatus reports zero document and
chunk counts with ftsIndexEnabled false and vector-only mode. -/
theorem read_ops_empty_without_table (cfg : VectorStoreConfig) (fts : Bool)
    (qv : List ℚ) (opts : SearchOptions)
    (ftsRank : String → List VectorChunk → List VectorChunk)
    (filters : Option ListFilters) (label : String) (memUsage uptime : ℚ) :
    VectorStore.search cfg ⟨none, fts⟩ qv opts ftsRank = .ok [] ∧
    VectorStore.listFiles ⟨none, fts⟩ filters = .ok [] ∧
    VectorStore.getMemoryByLabel ⟨none, fts⟩ label = .ok [] ∧
    VectorStore.getStatus cfg ⟨none, fts⟩ memUsage uptime =
      .ok { documentCount := 0, chunkCount := 0, memoryUsage := 0,
            uptime := uptime, ftsIndexEnabled := false,
            searchMode := "vector-only" } :=
  ⟨rfl, rfl, rfl, rfl⟩

/-- Claim C7, counterexample: the claim states that a limit of 0
passed to query_documents is rejected as outside 1..20.  The handler
computes args.limit || 10, so a zero limit is silently coerced to the
default 10 and the call succeeds (here on a store with an existing,
empty table, so that the store-level range check does run and passes
with the coerced 10). -/
theorem queryDocuments_limit0_not_rejected_cex :
    RAGServer.handleQueryDocuments {} ⟨some [], false⟩
      { query := "q", limit := some 0 } ⟨some (fun _ => .ok [1])⟩
      (fun _ rows => rows) = .ok [] := by
  have hvs : VectorStore.vectorSearch [] [1] = [] := by
    unfold VectorStore.vectorSearch
    rw [List.map_nil, List.mergeSort_nil, List.map_nil]
  have hq : ("q".length = 0) = False := eq_false (by decide)
  simp only [RAGServer.handleQueryDocuments, validateTypeFilter, validateTags,
    validateMinScore, Embedder.embed, VectorStore.search, hvs]
  norm_num [hq, hvs]

/-- Claim C7, amended: a limit of 0 in list_files is falsy and means
unlimited (identical to passing no limit); a limit of 0 passed
directly to the store-level search on an existing table is rejected
with the range error; but a limit of 0 passed to the query_documents
tool is coerced by args.limit || 10 to the default 10 before the store
sees it, making the handler call indistinguishable from limit 10 and
in particular not rejected. -/
theorem limit_zero_semantics :
    (∀ (rows : List VectorChunk) (fts : Bool) (t : Option TypeFilter)
        (tg : Option (List String)) (pr s : Option String),
      VectorStore.listFiles ⟨some rows, fts⟩
          (some { type := t, tags := tg, project := pr, search := s,
                  limit := some 0 }) =
        VectorStore.listFiles ⟨some rows, fts⟩
          (some { type := t, tags := tg, project := pr, search := s,
                  limit := none })) ∧
    (∀ (rows : List VectorChunk) (fts : Bool) (cfg : VectorStoreConfig)
        (qv : List ℚ) (opts : SearchOptions)
        (ftsRank : String → List VectorChunk → List VectorChunk),
      opts.limit = some 0 →
      VectorStore.search cfg ⟨some rows, fts⟩ qv opts ftsRank =
        .error ("Invalid limit: expected 1-20, got " ++ toString (0 : Int))) ∧
    (∀ (cfg : VectorStoreConfig) (st : VectorStoreState) (args : QueryArgs)
        (emb : EmbedderState)
        (ftsRank : String → List VectorChunk → List VectorChunk),
      RAGServer.handleQueryDocuments cfg st { args with limit := some 0 }
          emb ftsRank =
        RAGServer.handleQueryDocuments cfg st { args with limit := some 10 }
          emb ftsRank) := by
  refine ⟨?_, ?_, ?_⟩
  · intro rows fts t tg pr s
    simp [VectorStore.listFiles]
  · intro rows fts cfg qv opts ftsRank hlim
    simp [VectorStore.search, hlim]
  · intro cfg st args emb ftsRank
    simp [RAGServer.handleQueryDocuments]

theorem limit_zero_semantics_witness :
    ({ limit := some 0 : SearchOptions }).limit = some 0 ∧
    VectorStore.search {} ⟨some [], false⟩ [1] { limit := some 0 }
        (fun _ rows => rows) =
      .error ("Invalid limit: expected 1-20, got " ++ toString (0 : Int)) :=
  ⟨rfl, limit_zero_semantics.2.1 [] false {} [1] { limit := some 0 }
    (fun _ rows => rows) rfl⟩

/-- Every row of a non-null backup produced by the backup phase belongs
to the backed-up file, carries the dummy query vector instead of its
original stored vector, and carries the ingest-time timestamp instead
of its original one. -/
theorem backupPhase_rows (cfg : VectorStoreConfig) (st : VectorStoreState)
    (fp : String) (qv : List ℚ) (freshId : Nat → String) (nowTs : String)
    (ftsRank : String → List VectorChunk → List VectorChunk)
    (b : List VectorChunk)
    (h : RAGServer.backupPhase cfg st fp qv freshId nowTs ftsRank = some b) :
    ∀ c ∈ b, c.filePath = fp ∧ c.vector = qv ∧ c.timestamp = nowTs := by
  unfold RAGServer.backupPhase at h
  split at h
  · exact Option.noConfusion h
  split at h
  · exact Option.noConfusion h
  split at h
  · exact Option.noConfusion h
  split at h
  · exact Option.noConfusion h
  split at h
  · exact Option.noConfusion h
  · have hb := Option.some.inj h
    subst hb
    intro c hc
    obtain ⟨p, hp, rfl⟩ := List.mem_map.mp hc
    refine ⟨?_, rfl, rfl⟩
    show p.2.filePath = fp
    have h2 := List.mem_map_of_mem Prod.snd hp
    rw [List.enum_map_snd] at h2
    have h3 := List.mem_filter.mp h2
    simpa using h3.2

/-- Dense retrieval over the single-row store of the re-ingest
example. -/
theorem c1_vectorSearch_eval :
    VectorStore.vectorSearch [c1Row] [3] =
      [toRawWithDist (c1Row, dotDistance [3] c1Row.vector)] := by
  show (List.mergeSort [(c1Row, dotDistance [3] c1Row.vector)]
    (fun a b => decide (a.2 ≤ b.2))).map toRawWithDist = _
  rw [List.mergeSort_singleton]
  rfl

/-- The backup-phase search of the re-ingest example returns the single
stored row. -/
theorem c1_search_eval :
    VectorStore.search {} ⟨some [c1Row], false⟩ [3] { limit := some 20 } c1Rank =
      .ok [toSearchResultWithMetadata
        (toRawWithDist (c1Row, dotDistance [3] c1Row.vector))] :=
  calc VectorStore.search {} ⟨some [c1Row], false⟩ [3] { limit := some 20 } c1Rank
      = .ok ((((VectorStore.vectorSearch [c1Row] [3]).take 60).map
          toSearchResultWithMetadata).take 20) := rfl
    _ = _ := by rw [c1_vectorSearch_eval]; rfl

/-- The backup phase of the re-ingest example snapshots exactly the
rebuilt row c1Backup. -/
theorem c1_backup_eval :
    RAGServer.backupPhase {} ⟨some [c1Row], false⟩ "/f" [3] c1Ids "TS-NOW"
      c1Rank = some [c1Backup] := by
  unfold RAGServer.backupPhase
  rw [c1_search_eval]
  rfl

/-- C1 (amended): when the insert phase of a re-ingest fails and a
non-empty backup was captured, handleIngestFile reinserts the backup
rows and rethrows the insert error under the handler prefix; but the
restoration is not byte-identical: every backup row carries a fresh
dummy vector (the query embedding) and the rollback-time timestamp in
place of the original stored values.  When the rollback insert itself
also fails, the surfaced composite message appends only the insert
error's constant DatabaseError text ("Failed to insert chunks") and
names neither the underlying insert cause nor the rollback cause. -/
theorem ingest_rollback_semantics
    (cfg : VectorStoreConfig) (st : VectorStoreState) (args : IngestArgs)
    (text : String) (language : Option String)
    (splitter : String → List String) (emb : EmbedderState)
    (freshId : Nat → String) (nowTs : String)
    (ftsRank : String → List VectorChunk → List VectorChunk)
    (imsg : String) (chunks : List TextChunk)
    (embeddings : List (List ℚ)) (b : List VectorChunk)
    (st1 st2 : VectorStoreState) (vcs : List VectorChunk)
    (hchunk : DocumentChunker.chunkText (some splitter) text = .ok chunks)
    (hemb : Embedder.embedBatch emb (chunks.map (fun c => c.text)) =
      .ok embeddings)
    (hbackup : RAGServer.backupPhase cfg st args.filePath (embeddings.headD [])
      freshId nowTs ftsRank = some b)
    (hb : b ≠ [])
    (hdel : VectorStore.deleteChunks st args.filePath none = .ok st1)
    (hmk : mkIngestChunks args text language chunks embeddings freshId
      b.length nowTs = .ok vcs)
    (hvcs : vcs ≠ [])
    (hroll : VectorStore.insertChunks st1 b none = .ok st2) :
    RAGServer.handleIngestFile cfg st args text language splitter emb freshId
        nowTs ftsRank (some imsg) none =
      (st2, .error ("Failed to ingest file: " ++ "Failed to insert chunks")) ∧
    (∀ c ∈ b, c.filePath = args.filePath ∧ c.vector = embeddings.headD [] ∧
      c.timestamp = nowTs) ∧
    (∀ rmsg : String,
      RAGServer.handleIngestFile cfg st args text language splitter emb freshId
          nowTs ftsRank (some imsg) (some rmsg) =
        (st1, .error ("Failed to ingest file: " ++
          ("Failed to ingest file and rollback failed: " ++
            "Failed to insert chunks")))) := by
  have hlen : 0 < b.length := List.length_pos.mpr hb
  have hins : VectorStore.insertChunks st1 vcs (some imsg) =
      .error "Failed to insert chunks" := by
    unfold VectorStore.insertChunks
    rw [if_neg (mt List.isEmpty_iff.mp hvcs)]
  have hrollb : ∀ rmsg : String, VectorStore.insertChunks st1 b (some rmsg) =
      .error "Failed to insert chunks" := by
    intro rmsg
    unfold VectorStore.insertChunks
    rw [if_neg (mt List.isEmpty_iff.mp hb)]
  refine ⟨?_, backupPhase_rows cfg st args.filePath (embeddings.headD [])
    freshId nowTs ftsRank b hbackup, ?_⟩
  · simp only [RAGServer.handleIngestFile, hchunk, hemb, hbackup,
      Option.getD_some, hdel, hmk, hins]
    rw [if_pos hlen, hroll]
  · intro rmsg
    simp only [RAGServer.handleIngestFile, hchunk, hemb, hbackup,
      Option.getD_some, hdel, hmk, hins]
    rw [if_pos hlen, hrollb rmsg]

/-- Counterexample to the literal C1: in the concrete re-ingest run the
rollback terminates with the store holding c1Backup, whose vector
differs from the original row's vector (so the row-set is not restored
byte-identical), and when the rollback also fails the surfaced message
is a constant that contains neither the insert cause ("disk full") nor
the rollback cause ("rollback cause A"). -/
theorem ingest_rollback_cex :
    RAGServer.handleIngestFile {} ⟨some [c1Row], false⟩ c1Args "newtext" none
        c1Splitter c1Emb c1Ids "TS-NOW" c1Rank (some "disk full") none =
      (⟨some [c1Backup], false⟩,
        .error ("Failed to ingest file: " ++ "Failed to insert chunks")) ∧
    c1Backup.vector ≠ c1Row.vector ∧
    (RAGServer.handleIngestFile {} ⟨some [c1Row], false⟩ c1Args "newtext" none
        c1Splitter c1Emb c1Ids "TS-NOW" c1Rank (some "disk full")
        (some "rollback cause A")).2 =
      .error ("Failed to ingest file: " ++
        ("Failed to ingest file and rollback failed: " ++
          "Failed to insert chunks")) ∧
    containsSub ("Failed to ingest file: " ++
      ("Failed to ingest file and rollback failed: " ++
        "Failed to insert chunks")).data "disk full".data = false ∧
    containsSub ("Failed to ingest file: " ++
      ("Failed to ingest file and rollback failed: " ++
        "Failed to insert chunks")).data "rollback cause A".data = false := by
  have e1 : DocumentChunker.chunkText (some c1Splitter) "newtext" =
      .ok [⟨"newchunk", 0⟩] := rfl
  have e2 : Embedder.embedBatch c1Emb
      (List.map (fun c => c.text) [(⟨"newchunk", 0⟩ : TextChunk)]) =
      .ok [[3]] := rfl
  have e3 : RAGServer.backupPhase {} ⟨some [c1Row], false⟩ c1Args.filePath
      (List.headD [[3]] []) c1Ids "TS-NOW" c1Rank = some [c1Backup] :=
    c1_backup_eval
  have e4 : VectorStore.deleteChunks ⟨some [c1Row], false⟩ c1Args.filePath
      none = .ok ⟨some [], false⟩ := rfl
  have e5 : mkIngestChunks c1Args "newtext" none [⟨"newchunk", 0⟩] [[3]] c1Ids
      ((Option.getD (some [c1Backup]) []).length) "TS-NOW" = .ok [c1New] := rfl
  have e6 : VectorStore.insertChunks ⟨some [], false⟩ [c1New]
      (some "disk full") = .error "Failed to insert chunks" := rfl
  have e7 : VectorStore.insertChunks ⟨some [], false⟩ [c1Backup] none =
      .ok ⟨some [c1Backup], false⟩ := rfl
  have e8 : VectorStore.insertChunks ⟨some [], false⟩ [c1Backup]
      (some "rollback cause A") = .error "Failed to insert chunks" := rfl
  refine ⟨?_, by decide, ?_, by decide, by decide⟩
  · simp only [RAGServer.handleIngestFile, e1, e2, e3, e4, e5, e6, e7]
    simp
  · simp only [RAGServer.handleIngestFile, e1, e2, e3, e4, e5, e6, e8]
    simp

/-- Concrete instantiation of the amended C1 theorem: the failed-insert
failed-rollback run of the re-ingest example surfaces the constant
composite message and leaves the post-delete state in place. -/
theorem ingest_rollback_semantics_witness :
    RAGServer.handleIngestFile {} ⟨some [c1Row], false⟩ c1Args "newtext" none
        c1Splitter c1Emb c1Ids "TS-NOW" c1Rank (some "disk full")
        (some "dir gone") =
      (⟨some [], false⟩, .error ("Failed to ingest file: " ++
        ("Failed to ingest file and rollback failed: " ++
          "Failed to insert chunks"))) :=
  (ingest_rollback_semantics {} ⟨some [c1Row], false⟩ c1Args "newtext" none
    c1Splitter c1Emb c1Ids "TS-NOW" c1Rank "disk full" [⟨"newchunk", 0⟩] [[3]]
    [c1Backup] ⟨some [], false⟩ ⟨some [c1Backup], false⟩ [c1New]
    rfl rfl c1_backup_eval (List.cons_ne_nil _ _) rfl rfl
    (List.cons_ne_nil _ _) rfl).2.2 "dir gone"
